import Mathlib

/-!
# terraform-provider-http: the `http` data source

A shallow embedding of `internal/provider/data_source_http.go`:
`isContentTypeText` and `dataSourceHTTP.Read`.

Go strings that carry text (URLs, header names and values, media types) are
Lean strings; the response body, which the code receives as `[]byte` and turns
into a string with the conversion `string(bytes)`, is kept as its byte sequence,
because that conversion copies the bytes unchanged.

Calls into the Go standard library and into terraform-plugin-framework whose
result is not determined by this repository (media type parsing, Unicode
lower-casing, `fmt.Sprintf`, URL parsing, the HTTP round trip, the framework's
value conversions and state encoding) are fields of `Env`; every general theorem
holds for every `Env`.
-/

set_option autoImplicit false

/-! ## The fragment of Go's `regexp` used by the patterns of this program -/

namespace Regexp

/-- One instruction of a compiled pattern. -/
inductive Inst where
  /-- The anchor `^` without the `m` flag: the beginning of the text -/
  | beginText
  /-- The anchor `$` without the `m` flag: the end of the text -/
  | endText
  /-- The atom `.` without the `s` flag: any character except a line feed;
  `plus` is set when the atom carries the repetition `+` -/
  | anyCharNotNL (plus : Bool)
  /-- a literal character, possibly repeated with `+` -/
  | literal (c : Char) (plus : Bool)
  deriving DecidableEq, Repr

/-- A compiled pattern: a sequence of instructions. -/
abbrev Prog := List Inst

/-- Characters with a meaning of their own in a pattern. -/
def isMeta (c : Char) : Bool :=
  "\\.+*?()|[]{}^$".data.contains c

/-- Attaches a trailing `+` to the atom just parsed, when there is one. -/
def withPlus (mk : Bool → Inst) (compileRest : List Char → Option Prog) :
    List Char → Option Prog
  | '+' :: rest => (compileRest rest).map (mk true :: ·)
  | rest => (compileRest rest).map (mk false :: ·)

/-- The pattern parser; `fuel` bounds the number of atoms still to be read
(the length of the pattern is enough). -/
def compileAux : Nat → List Char → Option Prog
  | _, [] => some []
  | 0, _ :: _ => none
  | fuel + 1, '^' :: rest => (compileAux fuel rest).map (Inst.beginText :: ·)
  | fuel + 1, '$' :: rest => (compileAux fuel rest).map (Inst.endText :: ·)
  | fuel + 1, '.' :: rest => withPlus Inst.anyCharNotNL (compileAux fuel) rest
  | fuel + 1, '\\' :: c :: rest =>
      if isMeta c then withPlus (Inst.literal c) (compileAux fuel) rest else none
  | fuel + 1, c :: rest =>
      if isMeta c then none else withPlus (Inst.literal c) (compileAux fuel) rest

/-- Parses a pattern of the supported fragment: literals, `\` escapes of
punctuation, `.`, `^`, `$` and the postfix `+` on a character atom.
Anything else is not compiled. -/
def compile (pattern : String) : Option Prog :=
  compileAux pattern.data.length pattern.data

/-- A pattern that matches no text: `$` followed by a character. -/
def never : Prog := [Inst.endText, Inst.anyCharNotNL false]

/-- Go `regexp.MustCompile`. Go panics on a pattern that does not compile; a
pattern outside the supported fragment is mapped to `never` (the three patterns
of this program compile, see `allowed_compiled`). -/
def MustCompile (pattern : String) : Prog :=
  (compile pattern).getD never

/-- One or more characters accepted by `accept`, then the continuation `k`. -/
def matchPlus (accept : Char → Bool) (k : List Char → Bool) : List Char → Bool
  | [] => false
  | c :: cs => accept c && (k cs || matchPlus accept k cs)

/-- Exactly one character accepted by `accept`, then the continuation `k`. -/
def matchOne (accept : Char → Bool) (k : List Char → Bool) : List Char → Bool
  | [] => false
  | c :: cs => accept c && k cs

/-- Does the program match a prefix of the text `s`? `atStart` tells whether
`s` is the whole text (no character has been skipped or consumed). -/
def matchHere : Prog → Bool → List Char → Bool
  | [], _, _ => true
  | Inst.beginText :: r, atStart, s => atStart && matchHere r atStart s
  | Inst.endText :: r, atStart, s => s.isEmpty && matchHere r atStart s
  | Inst.anyCharNotNL plus :: r, _, s =>
      if plus then matchPlus (· != '\n') (matchHere r false) s
      else matchOne (· != '\n') (matchHere r false) s
  | Inst.literal c plus :: r, _, s =>
      if plus then matchPlus (· == c) (matchHere r false) s
      else matchOne (· == c) (matchHere r false) s

/-- Unanchored search: the program matches at some position of the text. -/
def matchFrom (p : Prog) : Bool → List Char → Bool
  | atStart, [] => matchHere p atStart []
  | atStart, c :: cs => matchHere p atStart (c :: cs) || matchFrom p false cs

/-- Go `(*Regexp).MatchString`: the text contains a match of the pattern. -/
def MatchString (re : Prog) (s : String) : Bool :=
  matchFrom re true s.data

/-- The program of a run of literal characters. -/
def lits (cs : List Char) : Prog := cs.map (fun c => Inst.literal c false)

end Regexp

/-! ## Data model -/

namespace Provider

/-- Go `[]byte`, and the bytes of a Go string that is not known to be text. -/
abbrev Bytes := List UInt8

/-- Go `error`, represented by its message. -/
abbrev GoError := String

deriving instance DecidableEq for Except

/-- Go `diag.Severity` of terraform-plugin-framework. -/
inductive Severity where
  | Error
  | Warning
  deriving DecidableEq, Repr

/-- A `diag.Diagnostic`: severity, summary and detail. -/
structure Diagnostic where
  Severity : Severity
  Summary : String
  Detail : String
  deriving DecidableEq, Repr

/-- Go `diag.Diagnostics`: a sequence of diagnostics. -/
abbrev Diagnostics := List Diagnostic

/-- Go `Diagnostics.Append`: adds the diagnostics that are not already contained. -/
def Diagnostics.Append (diags : Diagnostics) (new : List Diagnostic) : Diagnostics :=
  new.foldl (fun acc d => if acc.contains d then acc else acc ++ [d]) diags

/-- Go `Diagnostics.HasError`: some diagnostic has severity error. -/
def Diagnostics.HasError (diags : Diagnostics) : Bool :=
  diags.any (fun d => d.Severity == Severity.Error)

/-- Go `Diagnostics.AddError`. -/
def Diagnostics.AddError (diags : Diagnostics) (summary detail : String) : Diagnostics :=
  diags.Append [⟨Severity.Error, summary, detail⟩]

/-- Go `Diagnostics.AddWarning`. -/
def Diagnostics.AddWarning (diags : Diagnostics) (summary detail : String) : Diagnostics :=
  diags.Append [⟨Severity.Warning, summary, detail⟩]

/-- Go `types.String` with a value of type `σ`: text for configuration and header
values, bytes for the body fields. -/
structure TypesString (σ : Type) where
  Unknown : Bool
  Null : Bool
  Value : σ
  deriving DecidableEq, Repr

/-- Go `types.Map` with string elements; `Elems` is the Go map
`map[string]attr.Value`, listed in the order in which `range` visits it. -/
structure TypesMap where
  Unknown : Bool
  Null : Bool
  Elems : List (String × TypesString String)
  deriving DecidableEq, Repr

/-- Go `HTTPModel`, lines 93-100. -/
structure HTTPModel where
  ID : TypesString String
  URL : TypesString String
  RequestHeaders : TypesMap
  ResponseHeaders : TypesMap
  Body : TypesString Bytes
  ResponseBody : TypesString Bytes
  deriving DecidableEq, Repr

/-- The configuration object of the data source: the attributes of `GetSchema`
that a configuration can set (`url`, required; `request_headers`, optional),
and the attributes the object carries beyond those of the schema, such as the
`method` of the configurations in `data_source_http_test.go`. -/
structure Config where
  url : TypesString String
  request_headers : TypesMap
  extra : List (String × TypesString String)
  deriving DecidableEq, Repr

/-- Go `tfsdk.State`: the stored object, if any. -/
structure State where
  Raw : Option HTTPModel
  deriving DecidableEq, Repr

/-- Go `tfsdk.ReadDataSourceRequest`. -/
structure ReadDataSourceRequest where
  Config : Config
  deriving DecidableEq, Repr

/-- Go `tfsdk.ReadDataSourceResponse`. -/
structure ReadDataSourceResponse where
  State : State
  Diagnostics : Diagnostics
  deriving DecidableEq, Repr

/-- Go `http.Header`, a Go `map[string][]string`: distinct keys, listed in the
order in which `range` visits them. -/
abbrev Header := List (String × List String)

/-- Go `http.Request`: method, URL and header. -/
structure Request where
  Method : String
  URL : String
  Header : Header
  deriving DecidableEq, Repr

/-- Go `response.Body`, an `io.ReadCloser`: the bytes it delivers and the error,
if any, that ends the stream instead of a clean end of file. -/
structure ReadCloser where
  data : Bytes
  err : Option GoError
  deriving DecidableEq, Repr

/-- Go `http.Response`: status code, header and body stream. -/
structure Response where
  StatusCode : Int
  Header : Header
  Body : ReadCloser
  deriving DecidableEq, Repr

/-- An operand of `fmt.Sprintf`. -/
inductive FmtArg where
  | str (s : String)
  | int (i : Int)
  | err (e : GoError)
  deriving DecidableEq, Repr

/-- The collaborators of the provider: library and framework calls whose result
this repository does not determine. -/
structure Env where
  /-- Go `mime.ParseMediaType`: the media type and its parameters, or an error -/
  ParseMediaType : String → Except GoError (String × List (String × String))
  /-- Go `strings.ToLower` -/
  ToLower : String → String
  /-- Go `fmt.Sprintf` -/
  Sprintf : String → List FmtArg → String
  /-- Go `url.Parse`, as far as `http.NewRequestWithContext` uses it: its error -/
  urlParse : String → Option GoError
  /-- Go `req.Config.Get`: the decoded model and the diagnostics of the decoding -/
  ConfigGet : Config → HTTPModel × Diagnostics
  /-- the diagnostics of `tfsdk.ValueAs` into a Go `string` -/
  ValueAsDiags : TypesString String → Diagnostics
  /-- the diagnostics of `tfsdk.ValueFrom` on a `map[string]string` -/
  ValueFromDiags : List (String × String) → Diagnostics
  /-- Go `resp.State.Set`: the new state and the diagnostics of the encoding -/
  StateSet : State → HTTPModel → State × Diagnostics
  /-- Go `client.Do`: the round trip to the server, or a transport error -/
  Do : Request → Except GoError Response

/-! ## Library functions with a determined result -/

/-- Token characters of RFC 7230 (`httpguts.IsTokenRune`,
`textproto.validHeaderFieldByte`). -/
def isTokenRune (c : Char) : Bool :=
  c.isAlphanum || "!#$%&'*+-.^_`|~".data.contains c

/-- The canonicalisation loop of `textproto.canonicalMIMEHeaderKey`: upper case
for the first letter and after each dash, lower case elsewhere. -/
def canonicalize : Bool → List Char → List Char
  | _, [] => []
  | upper, c :: cs =>
      let c1 := if upper && c.isLower then c.toUpper
                else if !upper && c.isUpper then c.toLower else c
      c1 :: canonicalize (c1 == '-') cs

/-- Go `textproto.CanonicalMIMEHeaderKey`: a key made of token characters is
canonicalised, any other key is returned unchanged. -/
def CanonicalMIMEHeaderKey (s : String) : String :=
  if s.data.all isTokenRune then String.mk (canonicalize true s.data) else s

/-- Go map assignment `m[k] = v`. -/
def mapSet {β : Type} : List (String × β) → String → β → List (String × β)
  | [], k, v => [(k, v)]
  | (k1, v1) :: rest, k, v =>
      if k1 = k then (k, v) :: rest else (k1, v1) :: mapSet rest k v

/-- Go map lookup with the comma-ok form. -/
def mapGet {β : Type} : List (String × β) → String → Option β
  | [], _ => none
  | (k1, v1) :: rest, k => if k1 = k then some v1 else mapGet rest k

/-- The number of entries of a Go map under the key `k`. -/
def countKey {β : Type} (m : List (String × β)) (k : String) : Nat :=
  (m.filter (fun kv => kv.1 == k)).length

/-- A Go map holds every key at most once. -/
def UniqueKeys {β : Type} (m : List (String × β)) : Prop :=
  ∀ k, countKey m k ≤ 1

/-- Successive Go map assignments, in the order of the list. -/
def foldSet {β : Type} (acc : List (String × β)) (l : List (String × β)) : List (String × β) :=
  l.foldl (fun m kv => mapSet m kv.1 kv.2) acc

/-- Go `http.Header.Set`. -/
def Header.Set (h : Header) (key value : String) : Header :=
  mapSet h (CanonicalMIMEHeaderKey key) [value]

/-- Go `http.Header.Get`: the first value of the key, or the empty string. -/
def Header.Get (h : Header) (key : String) : String :=
  match mapGet h (CanonicalMIMEHeaderKey key) with
  | some (v :: _) => v
  | _ => ""

/-- Go `strings.Join`. -/
def Join (elems : List String) (sep : String) : String :=
  sep.intercalate elems

/-- Go `http.validMethod`: a non-empty token. -/
def validMethod (method : String) : Bool :=
  !method.data.isEmpty && method.data.all isTokenRune

/-- Go `http.NewRequestWithContext` with a non-nil context and a nil body. -/
def NewRequestWithContext (env : Env) (method url : String) : Except GoError Request :=
  let method := if method = "" then "GET" else method
  if !validMethod method then
    .error (env.Sprintf "net/http: invalid method %q" [.str method])
  else
    match env.urlParse url with
    | some err => .error err
    | none => .ok { Method := method, URL := url, Header := [] }

/-- Go `ioutil.ReadAll`: the bytes read and the error that stopped the reading. -/
def ReadAll (body : ReadCloser) : Bytes × Option GoError :=
  (body.data, body.err)

/-- Go `tfsdk.ValueAs(ctx, value, &header)` for a string target. -/
def ValueAs (env : Env) (value : TypesString String) : String × Diagnostics :=
  (value.Value, env.ValueAsDiags value)

/-- Go `tfsdk.ValueFrom(ctx, responseHeaders, types.Map(string), &respHeadersState)`. -/
def ValueFrom (env : Env) (m : List (String × String)) : TypesMap × Diagnostics :=
  (⟨false, false, m.map (fun kv => (kv.1, ⟨false, false, kv.2⟩))⟩, env.ValueFromDiags m)

/-! ## `isContentTypeText`, lines 200-221 -/

/-- The slice `allowedContentTypes`, lines 207-211. -/
def allowedContentTypes : List Regexp.Prog :=
  [ Regexp.MustCompile "^text/.+",
    Regexp.MustCompile "^application/json$",
    Regexp.MustCompile "^application/samlmetadata\\+xml" ]

/-- The loop of lines 213-218 over the remaining patterns. -/
def matchAllowed (env : Env) (parsedType : String) (params : List (String × String)) :
    List Regexp.Prog → Bool
  | [] => false
  | r :: rest =>
      if Regexp.MatchString r parsedType then
        let charset := env.ToLower ((mapGet params "charset").getD "")
        charset == "" || charset == "utf-8" || charset == "us-ascii"
      else matchAllowed env parsedType params rest

/-- Go `isContentTypeText`. -/
def isContentTypeText (env : Env) (contentType : String) : Bool :=
  match env.ParseMediaType contentType with
  | .error _ => false
  | .ok (parsedType, params) => matchAllowed env parsedType params allowedContentTypes

/-! ## `dataSourceHTTP.Read`, lines 102-195 -/

/-- The statement through which `Read` returns. The last one, the end of the
function, carries the model that was handed to `resp.State.Set`. -/
inductive Exit where
  /-- line 107: the configuration could not be decoded -/
  | configError
  /-- line 121: `http.NewRequestWithContext` failed -/
  | requestError
  /-- line 129: a header value could not be converted -/
  | headerValueError
  /-- line 141: `client.Do` failed -/
  | transportError
  /-- line 151: the status code is not 200 -/
  | statusError
  /-- line 168: the body could not be read -/
  | bodyReadError
  /-- line 185: the response header map could not be converted -/
  | headerMapError
  /-- line 195: `resp.State.Set` was called with `record` -/
  | stateSet (record : HTTPModel)
  deriving DecidableEq, Repr

/-- What a call of `Read` leaves behind: the response object, the requests it
handed to `client.Do`, and the statement through which it returned. -/
structure ReadResult where
  resp : ReadDataSourceResponse
  dispatched : List Request
  exit : Exit
  deriving DecidableEq, Repr

/-- The loop of lines 124-133 over the remaining request header entries: the
diagnostics, and the request unless the loop returned from `Read`. -/
def setRequestHeaders (env : Env) :
    List (String × TypesString String) → Request → Diagnostics → Diagnostics × Option Request
  | [], request, diags => (diags, some request)
  | (name, value) :: rest, request, diags =>
      let (header, ds) := ValueAs env value
      let diags := diags.Append ds
      if diags.HasError then (diags, none)
      else
        setRequestHeaders env rest
          { request with Header := request.Header.Set name header } diags

/-- The header entries the loop of lines 124-133 assigns, in its order. -/
def headerAssignments (elems : List (String × TypesString String)) :
    List (String × List String) :=
  elems.map (fun kv => (CanonicalMIMEHeaderKey kv.1, [kv.2.Value]))

/-- The loop of lines 173-178: every header name with its values joined. -/
def flattenHeaders (h : Header) : List (String × String) :=
  h.foldl (fun responseHeaders kv => mapSet responseHeaders kv.1 (Join kv.2 ", ")) []

/-- Go `dataSourceHTTP.Read`. The client of line 113 is the `Do` of the
environment; the deferred `response.Body.Close()` of line 144 has no effect on
the result. -/
def Read (env : Env) (req : ReadDataSourceRequest) (resp : ReadDataSourceResponse) :
    ReadResult :=
  let (model, diags) := env.ConfigGet req.Config
  let resp := { resp with Diagnostics := resp.Diagnostics.Append diags }
  if resp.Diagnostics.HasError then ⟨resp, [], .configError⟩
  else
  let url := model.URL.Value
  let headers := model.RequestHeaders
  match NewRequestWithContext env "GET" url with
  | .error err =>
      ⟨{ resp with Diagnostics := (resp.Diagnostics.AddError "Error creating request"
            (env.Sprintf "Error creating request: %s" [.err err])) }, [], .requestError⟩
  | .ok request =>
  match setRequestHeaders env headers.Elems request resp.Diagnostics with
  | (diags, none) => ⟨{ resp with Diagnostics := diags }, [], .headerValueError⟩
  | (diags, some request) =>
  let resp := { resp with Diagnostics := diags }
  match env.Do request with
  | .error err =>
      ⟨{ resp with Diagnostics := (resp.Diagnostics.AddError "Error making request"
            (env.Sprintf "Error making request: %s" [.err err])) }, [request], .transportError⟩
  | .ok response =>
  if response.StatusCode != 200 then
    ⟨{ resp with Diagnostics := (resp.Diagnostics.AddError "HTTP response code error"
          (env.Sprintf "Response code is not 200: %d" [.int response.StatusCode])) },
      [request], .statusError⟩
  else
  let contentType := response.Header.Get "Content-Type"
  let resp :=
    if !isContentTypeText env contentType then
      { resp with Diagnostics := (resp.Diagnostics.AddWarning
          (env.Sprintf "Content-Type is not recognized as a text type, got %q" [.str contentType])
          "If the content is binary data, Terraform may not properly handle the contents of the response.") }
    else resp
  match ReadAll response.Body with
  | (_, some err) =>
      ⟨{ resp with Diagnostics := (resp.Diagnostics.AddError "Error reading response body"
            (env.Sprintf "Error reading response body: %s" [.err err])) },
        [request], .bodyReadError⟩
  | (bytes, none) =>
  let responseBody : Bytes := bytes
  let responseHeaders := flattenHeaders response.Header
  let (respHeadersState, diags) := ValueFrom env responseHeaders
  let resp := { resp with Diagnostics := resp.Diagnostics.Append diags }
  if resp.Diagnostics.HasError then ⟨resp, [request], .headerMapError⟩
  else
  let model := { model with
    ID := ⟨false, false, url⟩
    ResponseHeaders := respHeadersState
    Body := ⟨false, false, responseBody⟩
    ResponseBody := ⟨false, false, responseBody⟩ }
  let (state, diags) := env.StateSet resp.State model
  ⟨{ State := state, Diagnostics := resp.Diagnostics.Append diags }, [request], .stateSet model⟩

/-! ## The paths through `Read` -/

/-- The model `Read` hands to `resp.State.Set`, lines 188-191. -/
def recordOf (env : Env) (model : HTTPModel) (response : Response) : HTTPModel :=
  { model with
    ID := ⟨false, false, model.URL.Value⟩
    ResponseHeaders := (ValueFrom env (flattenHeaders response.Header)).1
    Body := ⟨false, false, response.Body.data⟩
    ResponseBody := ⟨false, false, response.Body.data⟩ }

/-- The diagnostic that `AddWarning` appends at lines 156-159. -/
def contentTypeWarning (env : Env) (contentType : String) : Diagnostic :=
  ⟨Severity.Warning,
    env.Sprintf "Content-Type is not recognized as a text type, got %q" [.str contentType],
    "If the content is binary data, Terraform may not properly handle the contents of the response."⟩

/-- The diagnostics after the content type check of lines 154-160. -/
def classify (env : Env) (response : Response) (diags : Diagnostics) : Diagnostics :=
  if isContentTypeText env (response.Header.Get "Content-Type") then diags
  else diags.Append [contentTypeWarning env (response.Header.Get "Content-Type")]

/-- The request `Read` has built when it reaches `client.Do` (lines 115-133),
for a decoded model: the method GET, the configured URL and the header entries
assigned in the order of the loop. -/
def builtRequest (model : HTTPModel) : Request :=
  ⟨"GET", model.URL.Value, foldSet [] (headerAssignments model.RequestHeaders.Elems)⟩

/-- The runs of `Read` on a decoded configuration (`model`, with the diagnostics
`cfgDiags` of the decoding), one constructor for each return statement. -/
inductive ReadRun (env : Env) (resp : ReadDataSourceResponse) (model : HTTPModel)
    (cfgDiags : Diagnostics) : ReadResult → Prop where
  | configError
      (herr : (resp.Diagnostics.Append cfgDiags).HasError = true) :
      ReadRun env resp model cfgDiags
        ⟨⟨resp.State, resp.Diagnostics.Append cfgDiags⟩, [], .configError⟩
  | requestError (err : GoError)
      (hcfg : (resp.Diagnostics.Append cfgDiags).HasError = false)
      (hreq : NewRequestWithContext env "GET" model.URL.Value = .error err) :
      ReadRun env resp model cfgDiags
        ⟨⟨resp.State, (resp.Diagnostics.Append cfgDiags).AddError "Error creating request"
            (env.Sprintf "Error creating request: %s" [.err err])⟩, [], .requestError⟩
  | headerValueError (request0 : Request) (diags : Diagnostics)
      (hcfg : (resp.Diagnostics.Append cfgDiags).HasError = false)
      (hreq : NewRequestWithContext env "GET" model.URL.Value = .ok request0)
      (hloop : setRequestHeaders env model.RequestHeaders.Elems request0
          (resp.Diagnostics.Append cfgDiags) = (diags, none)) :
      ReadRun env resp model cfgDiags ⟨⟨resp.State, diags⟩, [], .headerValueError⟩
  | transportError (request0 request : Request) (diags : Diagnostics) (err : GoError)
      (hcfg : (resp.Diagnostics.Append cfgDiags).HasError = false)
      (hreq : NewRequestWithContext env "GET" model.URL.Value = .ok request0)
      (hloop : setRequestHeaders env model.RequestHeaders.Elems request0
          (resp.Diagnostics.Append cfgDiags) = (diags, some request))
      (hdo : env.Do request = .error err) :
      ReadRun env resp model cfgDiags
        ⟨⟨resp.State, diags.AddError "Error making request"
            (env.Sprintf "Error making request: %s" [.err err])⟩, [request], .transportError⟩
  | statusError (request0 request : Request) (diags : Diagnostics) (response : Response)
      (hcfg : (resp.Diagnostics.Append cfgDiags).HasError = false)
      (hreq : NewRequestWithContext env "GET" model.URL.Value = .ok request0)
      (hloop : setRequestHeaders env model.RequestHeaders.Elems request0
          (resp.Diagnostics.Append cfgDiags) = (diags, some request))
      (hdo : env.Do request = .ok response)
      (hstatus : response.StatusCode ≠ 200) :
      ReadRun env resp model cfgDiags
        ⟨⟨resp.State, diags.AddError "HTTP response code error"
            (env.Sprintf "Response code is not 200: %d" [.int response.StatusCode])⟩,
          [request], .statusError⟩
  | bodyReadError (request0 request : Request) (diags : Diagnostics) (response : Response)
      (err : GoError)
      (hcfg : (resp.Diagnostics.Append cfgDiags).HasError = false)
      (hreq : NewRequestWithContext env "GET" model.URL.Value = .ok request0)
      (hloop : setRequestHeaders env model.RequestHeaders.Elems request0
          (resp.Diagnostics.Append cfgDiags) = (diags, some request))
      (hdo : env.Do request = .ok response)
      (hstatus : response.StatusCode = 200)
      (hbody : response.Body.err = some err) :
      ReadRun env resp model cfgDiags
        ⟨⟨resp.State, (classify env response diags).AddError "Error reading response body"
            (env.Sprintf "Error reading response body: %s" [.err err])⟩,
          [request], .bodyReadError⟩
  | headerMapError (request0 request : Request) (diags : Diagnostics) (response : Response)
      (hcfg : (resp.Diagnostics.Append cfgDiags).HasError = false)
      (hreq : NewRequestWithContext env "GET" model.URL.Value = .ok request0)
      (hloop : setRequestHeaders env model.RequestHeaders.Elems request0
          (resp.Diagnostics.Append cfgDiags) = (diags, some request))
      (hdo : env.Do request = .ok response)
      (hstatus : response.StatusCode = 200)
      (hbody : response.Body.err = none)
      (hmap : ((classify env response diags).Append
          (env.ValueFromDiags (flattenHeaders response.Header))).HasError = true) :
      ReadRun env resp model cfgDiags
        ⟨⟨resp.State, (classify env response diags).Append
            (env.ValueFromDiags (flattenHeaders response.Header))⟩,
          [request], .headerMapError⟩
  | stateSet (request0 request : Request) (diags : Diagnostics) (response : Response)
      (hcfg : (resp.Diagnostics.Append cfgDiags).HasError = false)
      (hreq : NewRequestWithContext env "GET" model.URL.Value = .ok request0)
      (hloop : setRequestHeaders env model.RequestHeaders.Elems request0
          (resp.Diagnostics.Append cfgDiags) = (diags, some request))
      (hdo : env.Do request = .ok response)
      (hstatus : response.StatusCode = 200)
      (hbody : response.Body.err = none)
      (hmap : ((classify env response diags).Append
          (env.ValueFromDiags (flattenHeaders response.Header))).HasError = false) :
      ReadRun env resp model cfgDiags
        ⟨⟨(env.StateSet resp.State (recordOf env model response)).1,
            ((classify env response diags).Append
              (env.ValueFromDiags (flattenHeaders response.Header))).Append
              (env.StateSet resp.State (recordOf env model response)).2⟩,
          [request], .stateSet (recordOf env model response)⟩

end Provider

/-! ## A reference environment

Executable stand-ins for the collaborators, used to evaluate `Read` on concrete
inputs: the grammar of `mime.ParseMediaType`, ASCII lower-casing, the verbs
`%s`, `%d` and `%q` of `fmt.Sprintf`, and the handler of the mock server of
`data_source_http_test.go`. -/

namespace Reference

open Provider

/-- Go `mime.isTSpecial`. -/
def isTSpecial (c : Char) : Bool :=
  "()<>@,;:\\\"/[]?=".data.contains c

/-- Go `mime.isTokenChar`. -/
def isTokenChar (c : Char) : Bool :=
  decide (0x20 < c.toNat) && decide (c.toNat < 0x7f) && !isTSpecial c

/-- Go `unicode.IsSpace`. -/
def isSpace (c : Char) : Bool :=
  [0x09, 0x0a, 0x0b, 0x0c, 0x0d, 0x20, 0x85, 0xa0, 0x1680, 0x2028, 0x2029, 0x202f,
    0x205f, 0x3000].contains c.toNat
  || (decide (0x2000 ≤ c.toNat) && decide (c.toNat ≤ 0x200a))

/-- Go `unicode.ToLower` on the characters whose lower case is an ASCII letter (the
capital letters, U+0130 and the Kelvin sign U+212A); other characters are left
as they are. -/
def toLowerRune (c : Char) : Char :=
  if c.isUpper then c.toLower
  else if c.toNat = 0x130 then 'i'
  else if c.toNat = 0x212a then 'k'
  else c

/-- Go `strings.ToLower`, through `toLowerRune`. -/
def ToLower (s : String) : String :=
  String.mk (s.data.map toLowerRune)

/-- Go `strings.TrimLeftFunc(v, unicode.IsSpace)`. -/
def trimLeft (v : List Char) : List Char :=
  v.dropWhile isSpace

/-- Go `strings.TrimSpace`. -/
def trimSpace (v : List Char) : List Char :=
  ((v.dropWhile isSpace).reverse.dropWhile isSpace).reverse

/-- Go `mime.consumeToken`: the longest prefix of token characters, and the rest. -/
def consumeToken (v : List Char) : List Char × List Char :=
  (v.takeWhile isTokenChar, v.dropWhile isTokenChar)

/-- Go `mime.checkMediaTypeDisposition`. -/
def checkMediaTypeDisposition (s : List Char) : Option GoError :=
  let (typ, rest) := consumeToken s
  if typ.isEmpty then some "mime: no media type"
  else
    match rest with
    | [] => none
    | '/' :: rest1 =>
        let (subtype, rest2) := consumeToken rest1
        if subtype.isEmpty then some "mime: expected token after slash"
        else if !rest2.isEmpty then some "mime: unexpected content after media subtype"
        else none
    | _ => some "mime: expected slash after first token"

/-- The quoted-string loop of `mime.consumeValue`; `v` is the whole value,
returned untouched when the string is not closed or holds a line break. -/
def consumeQuoted (v : List Char) : List Char → List Char → List Char × List Char
  | [], _ => ([], v)
  | [r], buffer =>
      if r = '"' then (buffer.reverse, [])
      else if r = '\r' || r = '\n' then ([], v)
      else consumeQuoted v [] (r :: buffer)
  | r :: c :: rest1, buffer =>
      if r = '"' then (buffer.reverse, c :: rest1)
      else if r = '\\' && isTSpecial c then consumeQuoted v rest1 (c :: buffer)
      else if r = '\r' || r = '\n' then ([], v)
      else consumeQuoted v (c :: rest1) (r :: buffer)

/-- Go `mime.consumeValue`. -/
def consumeValue (v : List Char) : List Char × List Char :=
  match v with
  | [] => ([], [])
  | '"' :: rest => consumeQuoted v rest []
  | _ => consumeToken v

/-- Go `mime.consumeMediaParam`: name, value and rest; an empty name on failure. -/
def consumeMediaParam (v : List Char) : List Char × List Char × List Char :=
  match trimLeft v with
  | ';' :: rest0 =>
      let (param0, rest1) := consumeToken (trimLeft rest0)
      let param := param0.map toLowerRune
      if param.isEmpty then ([], [], v)
      else
        match trimLeft rest1 with
        | '=' :: rest2 =>
            let rest3 := trimLeft rest2
            let (value, rest4) := consumeValue rest3
            if value.isEmpty && rest4 = rest3 then ([], [], v)
            else (param, value, rest4)
        | _ => ([], [], v)
  | _ => ([], [], v)

/-- The parameter loop of `mime.ParseMediaType`; `fuel` bounds the number of
parameters (one more than the length of the text is enough). A parameter
equal to an earlier one is accepted, as in current Go. A parameter in the extended
notation of RFC 2231 (a `*` in its name) is reported as an error: this
reference parser covers plain parameters only. -/
def parseParams : Nat → List Char → List (String × String) →
    Except GoError (List (String × String))
  | 0, _, params => .ok params
  | fuel + 1, v, params =>
      match trimLeft v with
      | [] => .ok params
      | v1 =>
          let (key, value, rest) := consumeMediaParam v1
          if key.isEmpty then
            if trimSpace rest = [';'] then .ok params
            else .error "mime: invalid media parameter"
          else if key.contains '*' then .error "mime: extended parameter"
          else
            match mapGet params (String.mk key) with
            | some old =>
                if old ≠ String.mk value then .error "mime: duplicate parameter name"
                else parseParams fuel rest (mapSet params (String.mk key) (String.mk value))
            | none => parseParams fuel rest (mapSet params (String.mk key) (String.mk value))

/-- Go `mime.ParseMediaType` for media types with plain parameters. -/
def ParseMediaType (v : String) : Except GoError (String × List (String × String)) :=
  let base := v.data.takeWhile (· != ';')
  let mediatype := trimSpace (base.map toLowerRune)
  match checkMediaTypeDisposition mediatype with
  | some err => .error err
  | none =>
      match parseParams (v.data.length + 1) (v.data.dropWhile (· != ';')) [] with
      | .error err => .error err
      | .ok params => .ok (String.mk mediatype, params)

/-- A hexadecimal digit, lower case. -/
def hexDigit (n : Nat) : Char :=
  "0123456789abcdef".data.getD n '0'

/-- Go `strconv.Quote` of one character: the escapes of the ASCII range; other
characters are copied. -/
def quoteRune (c : Char) : List Char :=
  if c = '"' then ['\\', '"']
  else if c = '\\' then ['\\', '\\']
  else if c.toNat = 7 then ['\\', 'a']
  else if c.toNat = 8 then ['\\', 'b']
  else if c.toNat = 12 then ['\\', 'f']
  else if c = '\n' then ['\\', 'n']
  else if c = '\r' then ['\\', 'r']
  else if c = '\t' then ['\\', 't']
  else if c.toNat = 11 then ['\\', 'v']
  else if c.toNat < 0x20 || c.toNat = 0x7f then
    ['\\', 'x', hexDigit (c.toNat / 16), hexDigit (c.toNat % 16)]
  else [c]

/-- Go `strconv.Quote`, through `quoteRune`. -/
def Quote (s : String) : String :=
  String.mk ('"' :: (s.data.flatMap quoteRune ++ ['"']))

/-- The decimal digits of a natural number; `fuel` bounds their count. -/
def digits : Nat → Nat → List Char → List Char
  | 0, _, acc => acc
  | fuel + 1, n, acc =>
      let acc1 := hexDigit (n % 10) :: acc
      if n < 10 then acc1 else digits fuel (n / 10) acc1

/-- The verb `%d` on an integer. -/
def formatInt (i : Int) : List Char :=
  if i < 0 then '-' :: digits (i.natAbs + 1) i.natAbs [] else digits (i.natAbs + 1) i.natAbs []

/-- One operand under one verb; a verb that does not fit the operand is
reported the way `fmt` does, without the operand. -/
def formatArg (verb : Char) (arg : FmtArg) : List Char :=
  match verb, arg with
  | 's', .str s => s.data
  | 's', .err e => e.data
  | 'q', .str s => (Quote s).data
  | 'q', .err e => (Quote e).data
  | 'd', .int i => formatInt i
  | _, _ => ['%', '!', verb]

/-- Go `fmt.Sprintf` for formats whose verbs are single letters. -/
def sprintfAux : List Char → List FmtArg → List Char
  | [], _ => []
  | ['%'], _ => "%!(NOVERB)".data
  | '%' :: verb :: rest, args =>
      if verb = '%' then '%' :: sprintfAux rest args
      else
        match args with
        | [] => "%!".data ++ verb :: "(MISSING)".data ++ sprintfAux rest []
        | arg :: args1 => formatArg verb arg ++ sprintfAux rest args1
  | c :: rest, args => c :: sprintfAux rest args

/-- Go `fmt.Sprintf`, through `sprintfAux`. -/
def Sprintf (format : String) (args : List FmtArg) : String :=
  String.mk (sprintfAux format.data args)

/-- Go `url.Parse`, as far as its check for control characters goes. -/
def urlParse (url : String) : Option GoError :=
  if url.data.any (fun c => c.toNat < 0x20 || c.toNat = 0x7f) then
    some "net/url: invalid control character in URL"
  else none

/-- The null `types.String`. -/
def nullString {σ : Type} (zero : σ) : TypesString σ := ⟨false, true, zero⟩

/-- The null `types.Map`. -/
def nullMap : TypesMap := ⟨false, true, []⟩

/-- The zero value of `HTTPModel`, the `var model HTTPModel` of line 103. -/
def zeroModel : HTTPModel :=
  { ID := ⟨false, false, ""⟩, URL := ⟨false, false, ""⟩, RequestHeaders := ⟨false, false, []⟩,
    ResponseHeaders := ⟨false, false, []⟩, Body := ⟨false, false, []⟩,
    ResponseBody := ⟨false, false, []⟩ }

/-- Go `req.Config.Get`: the configured attributes are copied, the computed ones
are null. An object with an attribute for which `HTTPModel` has no field is
refused with a conversion error that names the attribute (the wording of the
framework is cut down to its cause) and the model keeps its zero value. -/
def ConfigGet (c : Config) : HTTPModel × Diagnostics :=
  if c.extra.isEmpty then
    ({ ID := nullString "", URL := c.url, RequestHeaders := c.request_headers,
       ResponseHeaders := nullMap, Body := nullString [], ResponseBody := nullString [] }, [])
  else
    (zeroModel, [⟨Severity.Error, "Value Conversion Error",
      "mismatch between struct and object: Object defines fields not found in struct: "
        ++ ", ".intercalate (c.extra.map Prod.fst) ++ "."⟩])

/-- Go `tfsdk.ValueAs` into a Go `string` refuses a null or unknown value. -/
def ValueAsDiags (v : TypesString String) : Diagnostics :=
  if v.Unknown then [⟨Severity.Error, "Value Conversion Error", "unhandled unknown value"⟩]
  else if v.Null then [⟨Severity.Error, "Value Conversion Error", "unhandled null value"⟩]
  else []

/-- Go `resp.State.Set`: the model becomes the stored object. -/
def StateSet (_ : State) (model : HTTPModel) : State × Diagnostics :=
  (⟨some model⟩, [])

/-- The bytes of an ASCII text. -/
def ascii (s : String) : Bytes :=
  s.data.map (fun c => c.toNat.toUInt8)

/-- A response of the mock server: the headers set at the top of its handler
(lines 296-299), with the given content type. -/
def mockResponse (status : Int) (contentType body : String) : Response :=
  { StatusCode := status,
    Header := [("Content-Type", [contentType]), ("X-Single", ["foobar"]),
               ("X-Double", ["1", "2"])],
    Body := ⟨ascii body, none⟩ }

/-- The handler of `setUpMockHttpServer`, lines 293-352, listening at
`http://127.0.0.1`; a handler that writes nothing answers 200 with no body. -/
def mockServer (r : Request) : Except GoError Response :=
  if r.URL = "http://127.0.0.1/200" then .ok (mockResponse 200 "text/plain" "1.0.0")
  else if r.URL = "http://127.0.0.1/restricted" then
    if r.Header.Get "Authorization" = "Zm9vOmJhcg==" then
      .ok (mockResponse 200 "text/plain" "1.0.0")
    else .ok (mockResponse 403 "text/plain" "")
  else if r.URL = "http://127.0.0.1/utf-8/200" then
    .ok (mockResponse 200 "text/plain; charset=UTF-8" "1.0.0")
  else if r.URL = "http://127.0.0.1/utf-16/200" then
    .ok (mockResponse 200 "application/json; charset=UTF-16" "1.0.0")
  else if r.URL = "http://127.0.0.1/x509-ca-cert/200" then
    .ok (mockResponse 200 "application/x-x509-ca-cert" "pem")
  else if r.URL = "http://127.0.0.1/create" then
    if r.Method = "POST" then .ok (mockResponse 201 "text/plain" "created")
    else .ok (mockResponse 200 "text/plain" "")
  else if r.URL = "http://127.0.0.1/recreate" then
    if r.Method = "PUT" then .ok (mockResponse 201 "text/plain" "recreated")
    else .ok (mockResponse 200 "text/plain" "")
  else if r.URL = "http://127.0.0.1/modified" then
    if r.Method = "PATCH" then .ok (mockResponse 200 "text/plain" "modified")
    else .ok (mockResponse 200 "text/plain" "")
  else if r.URL = "http://127.0.0.1/deleted" then
    if r.Method = "DELETE" then .ok (mockResponse 204 "text/plain" "")
    else .ok (mockResponse 200 "text/plain" "")
  else if "http://127.0.0.1/".data.isPrefixOf r.URL.data then
    .ok (mockResponse 404 "text/plain" "")
  else .error "dial tcp: connection refused"

/-- The reference environment with the given server at the other end. -/
def envWith (server : Request → Except GoError Response) : Env :=
  { ParseMediaType := ParseMediaType, ToLower := ToLower, Sprintf := Sprintf,
    urlParse := urlParse, ConfigGet := ConfigGet, ValueAsDiags := ValueAsDiags,
    ValueFromDiags := fun _ => [], StateSet := StateSet, Do := server }

/-- The reference environment, with the mock server at the other end. -/
def env : Env := envWith mockServer

/-- The reference environment with a framework that cannot convert the
response header map. -/
def envMapFails : Env :=
  { env with ValueFromDiags := fun _ =>
      [⟨Severity.Error, "Value Conversion Error", "cannot convert the header map"⟩] }

/-- A server that answers every request with status 200, no header at all and
the body `ok`. -/
def bareServer (_ : Request) : Except GoError Response :=
  .ok { StatusCode := 200, Header := [], Body := ⟨ascii "ok", none⟩ }

/-- A configuration with the given URL and request headers. -/
def config (url : String) (headers : List (String × String)) : ReadDataSourceRequest :=
  ⟨{ url := ⟨false, false, url⟩,
     request_headers := ⟨false, headers.isEmpty, headers.map (fun kv => (kv.1, ⟨false, false, kv.2⟩))⟩,
     extra := [] }⟩

/-- A configuration with the given URL and the attribute `method`, as in
`TestDataSource_UnsupportedMethod` and `TestDataSource_POST_201`. -/
def configWithMethod (url method : String) : ReadDataSourceRequest :=
  ⟨{ url := ⟨false, false, url⟩, request_headers := ⟨false, true, []⟩,
     extra := [("method", ⟨false, false, method⟩)] }⟩

/-- The response object `Read` starts from: no state, no diagnostics. -/
def emptyResponse : ReadDataSourceResponse := ⟨⟨none⟩, []⟩

end Reference

/-! ## The claims of the specification, in its own words -/

namespace Spec

open Provider

/-- The media type is text-safe: `text/` followed by a subtype (a character that
is not a line break comes next), exactly `application/json`, or a text that
starts with `application/samlmetadata+xml`. -/
def textSafe (mediaType : String) : Prop :=
  (∃ c rest, mediaType.data = "text/".data ++ c :: rest ∧ c ≠ '\n')
  ∨ mediaType = "application/json"
  ∨ ∃ rest, mediaType.data = "application/samlmetadata+xml".data ++ rest

/-- The charset parameter, compared without regard to case, is absent, `utf-8`
or `us-ascii`. -/
def charsetAbsentOrUtf8OrAscii (env : Env) (params : List (String × String)) : Prop :=
  match mapGet params "charset" with
  | none => True
  | some v => env.ToLower v = "utf-8" ∨ env.ToLower v = "us-ascii"

/-- The content type is text as the specification puts it: it parses, its
media type is text-safe and its charset is absent, `utf-8` or `us-ascii`. -/
def isText (env : Env) (contentType : String) : Prop :=
  ∃ mediaType params, env.ParseMediaType contentType = .ok (mediaType, params)
    ∧ textSafe mediaType ∧ charsetAbsentOrUtf8OrAscii env params

/-- The charset parameter is absent, or its lower-cased value is empty, `utf-8`
or `us-ascii`. -/
def charsetAbsentOrEmptyOrUtf8OrAscii (env : Env) (params : List (String × String)) : Prop :=
  match mapGet params "charset" with
  | none => True
  | some v => env.ToLower v = "" ∨ env.ToLower v = "utf-8" ∨ env.ToLower v = "us-ascii"

/-- The content type is text as the code decides it: like `isText`, with an
empty charset accepted as well. -/
def isTextOrEmptyCharset (env : Env) (contentType : String) : Prop :=
  ∃ mediaType params, env.ParseMediaType contentType = .ok (mediaType, params)
    ∧ textSafe mediaType ∧ charsetAbsentOrEmptyOrUtf8OrAscii env params

/-- The values of one header name joined with a comma and a space, in the
order received: a single value is left as it is. -/
def commaSeparated : List String → String
  | [] => ""
  | [v] => v
  | v :: w :: rest => v ++ ", " ++ commaSeparated (w :: rest)

/-- The fatal errors of the specification, stated on what the collaborators
answer to `Read`: the configuration does not decode, the request cannot be
constructed, a header value does not convert, the transport fails, the body
cannot be read, or the response header map does not convert. -/
inductive FatalError (env : Env) (req : ReadDataSourceRequest) : Prop where
  | configDecoding
      (h : Diagnostics.HasError (env.ConfigGet req.Config).2 = true) : FatalError env req
  | requestConstruction (err : GoError)
      (h : NewRequestWithContext env "GET" (env.ConfigGet req.Config).1.URL.Value
        = .error err) : FatalError env req
  | headerValueConversion (kv : String × TypesString String)
      (hkv : kv ∈ (env.ConfigGet req.Config).1.RequestHeaders.Elems)
      (h : Diagnostics.HasError (env.ValueAsDiags kv.2) = true) : FatalError env req
  | transport (err : GoError)
      (h : env.Do (builtRequest (env.ConfigGet req.Config).1) = .error err) : FatalError env req
  | bodyRead (response : Response) (err : GoError)
      (hdo : env.Do (builtRequest (env.ConfigGet req.Config).1) = .ok response)
      (h : response.Body.err = some err) : FatalError env req
  | headerMapConversion (response : Response)
      (hdo : env.Do (builtRequest (env.ConfigGet req.Config).1) = .ok response)
      (h : Diagnostics.HasError (env.ValueFromDiags (flattenHeaders response.Header)) = true) :
      FatalError env req

/-- The summaries of the errors `Read` raises itself, lines 117, 137, 147
and 164. -/
def ownErrorSummaries : List String :=
  ["Error creating request", "Error making request", "HTTP response code error",
    "Error reading response body"]

/-- Where a diagnostic of `Read` comes from: it was there before the call, a
framework call reported it, it is the content type warning, or it is one of the
four errors `Read` raises itself. -/
inductive DiagnosticOrigin (env : Env) (req : ReadDataSourceRequest)
    (resp : ReadDataSourceResponse) (x : Diagnostic) : Prop where
  | initial (h : x ∈ resp.Diagnostics) : DiagnosticOrigin env req resp x
  | configGet (h : x ∈ (env.ConfigGet req.Config).2) : DiagnosticOrigin env req resp x
  | valueAs (kv : String × TypesString String)
      (hkv : kv ∈ (env.ConfigGet req.Config).1.RequestHeaders.Elems)
      (h : x ∈ env.ValueAsDiags kv.2) : DiagnosticOrigin env req resp x
  | valueFrom (m : List (String × String)) (h : x ∈ env.ValueFromDiags m) :
      DiagnosticOrigin env req resp x
  | stateSet (record : HTTPModel) (h : x ∈ (env.StateSet resp.State record).2) :
      DiagnosticOrigin env req resp x
  | warning (contentType : String) (h : x = contentTypeWarning env contentType) :
      DiagnosticOrigin env req resp x
  | ownError (hsev : x.Severity = Severity.Error) (h : x.Summary ∈ ownErrorSummaries) :
      DiagnosticOrigin env req resp x

/-- The request carries every `request_headers` entry under the name as
supplied, with its value, and nothing else. -/
def headersAsSupplied (elems : List (String × TypesString String)) (request : Request) : Prop :=
  (∀ kv ∈ elems, (kv.1, [kv.2.Value]) ∈ request.Header)
  ∧ ∀ h ∈ request.Header, ∃ kv ∈ elems, h = (kv.1, [kv.2.Value])

end Spec

/-! ## Patterns -/

namespace Regexp

theorem matchHere_literal_nil (c : Char) (r : Prog) (st : Bool) :
    matchHere (Inst.literal c false :: r) st [] = false := by
  simp [matchHere, matchOne]

theorem matchHere_literal_cons (c d : Char) (r : Prog) (st : Bool) (ds : List Char) :
    matchHere (Inst.literal c false :: r) st (d :: ds) = ((d == c) && matchHere r false ds) := by
  simp [matchHere, matchOne]

theorem lits_cons_append (c : Char) (cs : List Char) (r : Prog) :
    lits (c :: cs) ++ r = Inst.literal c false :: (lits cs ++ r) := rfl

theorem matchHere_lits (cs : List Char) (r : Prog) :
    ∀ (st : Bool) (s : List Char),
      matchHere (lits cs ++ r) st s = true ↔
        ∃ rest, s = cs ++ rest ∧ matchHere r (st && cs.isEmpty) rest = true := by
  induction cs with
  | nil => intro st s; simp [lits]
  | cons c cs ih =>
      intro st s
      rw [lits_cons_append]
      cases s with
      | nil => simp [matchHere_literal_nil]
      | cons d ds =>
          rw [matchHere_literal_cons, Bool.and_eq_true, ih false ds]
          constructor
          · rintro ⟨hdc, rest, rfl, hr⟩
            refine ⟨rest, ?_, by simpa using hr⟩
            simp at hdc
            simp [hdc]
          · rintro ⟨rest, hs, hr⟩
            simp only [List.cons_append, List.cons.injEq] at hs
            exact ⟨by simp [hs.1], rest, hs.2, by simpa using hr⟩

theorem matchFrom_beginText_false (r : Prog) (s : List Char) :
    matchFrom (Inst.beginText :: r) false s = false := by
  induction s with
  | nil => simp [matchFrom, matchHere]
  | cons c cs ih => simp [matchFrom, matchHere, ih]

/-- A pattern `^` + literal text + tail matches exactly the texts that start
with the literal text and go on with a match of the tail. -/
theorem MatchString_anchored (cs : List Char) (hcs : cs ≠ []) (r : Prog) (s : String) :
    MatchString (Inst.beginText :: (lits cs ++ r)) s = true ↔
      ∃ rest, s.data = cs ++ rest ∧ matchHere r false rest = true := by
  have hne : cs.isEmpty = false := by cases cs <;> simp_all
  unfold MatchString
  cases hs : s.data with
  | nil =>
      simp only [matchFrom, matchHere, Bool.true_and, matchHere_lits, hne, Bool.and_false]
  | cons c t =>
      simp only [matchFrom, matchFrom_beginText_false, Bool.or_false, matchHere,
        Bool.true_and, matchHere_lits, hne, Bool.and_false]

theorem matchHere_dotPlus (s : List Char) :
    matchHere [Inst.anyCharNotNL true] false s = true ↔ ∃ c rest, s = c :: rest ∧ c ≠ '\n' := by
  cases s with
  | nil => simp [matchHere, matchPlus]
  | cons c cs => simp [matchHere, matchPlus]

theorem matchHere_endText (s : List Char) :
    matchHere [Inst.endText] false s = true ↔ s = [] := by
  cases s <;> simp [matchHere]

/-- The pattern `^` + literal text + `.+`: the text goes on, after the literal text, with a
character that is not a line feed. -/
theorem MatchString_anchored_dotPlus (cs : List Char) (hcs : cs ≠ []) (s : String) :
    MatchString (Inst.beginText :: (lits cs ++ [Inst.anyCharNotNL true])) s = true ↔
      ∃ c rest, s.data = cs ++ c :: rest ∧ c ≠ '\n' := by
  rw [MatchString_anchored cs hcs]
  constructor
  · rintro ⟨rest, hs, hm⟩
    obtain ⟨c, rest1, rfl, hc⟩ := (matchHere_dotPlus rest).mp hm
    exact ⟨c, rest1, hs, hc⟩
  · rintro ⟨c, rest, hs, hc⟩
    exact ⟨c :: rest, hs, (matchHere_dotPlus _).mpr ⟨c, rest, rfl, hc⟩⟩

/-- The pattern `^` + literal text + `$`: the text is the literal text. -/
theorem MatchString_anchored_end (cs : List Char) (hcs : cs ≠ []) (s : String) :
    MatchString (Inst.beginText :: (lits cs ++ [Inst.endText])) s = true ↔ s = String.mk cs := by
  rw [MatchString_anchored cs hcs]
  constructor
  · rintro ⟨rest, hs, hm⟩
    rw [(matchHere_endText rest).mp hm, List.append_nil] at hs
    cases s
    simp_all
  · rintro rfl
    exact ⟨[], by simp, (matchHere_endText _).mpr rfl⟩

/-- The pattern `^` + literal text: the text starts with the literal text. -/
theorem MatchString_anchored_open (cs : List Char) (hcs : cs ≠ []) (s : String) :
    MatchString (Inst.beginText :: (lits cs ++ [])) s = true ↔ ∃ rest, s.data = cs ++ rest := by
  rw [MatchString_anchored cs hcs]
  simp [matchHere]

end Regexp

namespace Provider

theorem allowed_compiled :
    allowedContentTypes =
      [ Regexp.Inst.beginText :: (Regexp.lits "text/".data ++ [Regexp.Inst.anyCharNotNL true]),
        Regexp.Inst.beginText :: (Regexp.lits "application/json".data ++ [Regexp.Inst.endText]),
        Regexp.Inst.beginText :: (Regexp.lits "application/samlmetadata+xml".data ++ []) ] := by
  decide

theorem matchAllowed_three (env : Env) (t : String) (params : List (String × String))
    (r1 r2 r3 : Regexp.Prog) :
    matchAllowed env t params [r1, r2, r3] = true ↔
      (Regexp.MatchString r1 t = true ∨ Regexp.MatchString r2 t = true
          ∨ Regexp.MatchString r3 t = true) ∧
        (env.ToLower ((mapGet params "charset").getD "") = ""
          ∨ env.ToLower ((mapGet params "charset").getD "") = "utf-8"
          ∨ env.ToLower ((mapGet params "charset").getD "") = "us-ascii") := by
  simp only [matchAllowed]
  cases Regexp.MatchString r1 t <;> cases Regexp.MatchString r2 t <;>
    cases Regexp.MatchString r3 t <;> simp [or_assoc]

theorem matchAllowed_iff (env : Env) (t : String) (params : List (String × String)) :
    matchAllowed env t params allowedContentTypes = true ↔
      Spec.textSafe t ∧
        (env.ToLower ((mapGet params "charset").getD "") = ""
          ∨ env.ToLower ((mapGet params "charset").getD "") = "utf-8"
          ∨ env.ToLower ((mapGet params "charset").getD "") = "us-ascii") := by
  have h1 := Regexp.MatchString_anchored_dotPlus "text/".data (by decide) t
  have h2 := Regexp.MatchString_anchored_end "application/json".data (by decide) t
  have h3 := Regexp.MatchString_anchored_open "application/samlmetadata+xml".data (by decide) t
  have key : Spec.textSafe t ↔
      (Regexp.MatchString (Regexp.Inst.beginText ::
          (Regexp.lits "text/".data ++ [Regexp.Inst.anyCharNotNL true])) t = true
        ∨ Regexp.MatchString (Regexp.Inst.beginText ::
          (Regexp.lits "application/json".data ++ [Regexp.Inst.endText])) t = true
        ∨ Regexp.MatchString (Regexp.Inst.beginText ::
          (Regexp.lits "application/samlmetadata+xml".data ++ [])) t = true) :=
    or_congr h1.symm (or_congr h2.symm h3.symm)
  rw [allowed_compiled, matchAllowed_three, key]

end Provider

/-! ## Diagnostics and Go maps -/

namespace Provider

theorem any_Append (p : Diagnostic → Bool) (new : List Diagnostic) :
    ∀ diags : Diagnostics, (Diagnostics.Append diags new).any p = (diags.any p || new.any p) := by
  induction new with
  | nil => intro diags; simp [Diagnostics.Append]
  | cons d ds ih =>
      intro diags
      have hstep : Diagnostics.Append diags (d :: ds)
          = Diagnostics.Append (if diags.contains d then diags else diags ++ [d]) ds := rfl
      rw [hstep, ih]
      by_cases hc : diags.contains d = true
      · have hmem : d ∈ diags := by simpa using hc
        simp only [hc, if_true, List.any_cons]
        cases hp : p d
        · simp
        · have : diags.any p = true := List.any_eq_true.mpr ⟨d, hmem, hp⟩
          simp [this]
      · simp only [hc, Bool.false_eq_true, if_false, List.any_append, List.any_cons, List.any_nil,
          Bool.or_false, Bool.or_assoc]

theorem HasError_Append (diags : Diagnostics) (new : List Diagnostic) :
    (Diagnostics.Append diags new).HasError = (diags.HasError || Diagnostics.HasError new) :=
  any_Append _ new diags

theorem HasError_AddError (diags : Diagnostics) (summary detail : String) :
    (diags.AddError summary detail).HasError = true := by
  rw [Diagnostics.AddError, HasError_Append]
  simp [Diagnostics.HasError]

theorem Append_nil (diags : Diagnostics) : Diagnostics.Append diags [] = diags := rfl

theorem mem_Append_self (diags : Diagnostics) (d : Diagnostic) :
    d ∈ Diagnostics.Append diags [d] := by
  have hstep : Diagnostics.Append diags [d]
      = (if diags.contains d then diags else diags ++ [d]) := rfl
  rw [hstep]
  by_cases hc : diags.contains d = true
  · have hmem : d ∈ diags := by simpa using hc
    rw [if_pos hc]
    exact hmem
  · rw [if_neg hc]
    simp

theorem mem_Append_of_mem (new : List Diagnostic) (d : Diagnostic) :
    ∀ diags : Diagnostics, d ∈ diags → d ∈ Diagnostics.Append diags new := by
  induction new with
  | nil => intro diags h; exact h
  | cons x xs ih =>
      intro diags h
      have hstep : Diagnostics.Append diags (x :: xs)
          = Diagnostics.Append (if diags.contains x then diags else diags ++ [x]) xs := rfl
      rw [hstep]
      apply ih
      split
      · exact h
      · exact List.mem_append_left _ h

/-- Membership of a key in a Go map. -/
theorem mapGet_mapSet_self {β : Type} (m : List (String × β)) (k : String) (v : β) :
    mapGet (mapSet m k v) k = some v := by
  induction m with
  | nil => simp [mapSet, mapGet]
  | cons kv rest ih =>
      obtain ⟨k1, v1⟩ := kv
      by_cases h : k1 = k
      · simp [mapSet, mapGet, h]
      · simp [mapSet, mapGet, h, ih]

theorem mapGet_mapSet_ne {β : Type} (m : List (String × β)) (k k2 : String) (v : β)
    (hne : k ≠ k2) : mapGet (mapSet m k v) k2 = mapGet m k2 := by
  induction m with
  | nil => simp [mapSet, mapGet, hne]
  | cons kv rest ih =>
      obtain ⟨k1, v1⟩ := kv
      by_cases h : k1 = k
      · subst h
        simp [mapSet, mapGet, hne]
      · by_cases h2 : k1 = k2
        · subst h2
          simp [mapSet, mapGet, h]
        · simp [mapSet, mapGet, h, h2, ih]

theorem countKey_mapSet_ne {β : Type} (m : List (String × β)) (k k2 : String) (v : β)
    (hne : k ≠ k2) : countKey (mapSet m k v) k2 = countKey m k2 := by
  induction m with
  | nil => simp [mapSet, countKey, hne]
  | cons kv rest ih =>
      obtain ⟨k1, v1⟩ := kv
      unfold countKey at ih ⊢
      by_cases h : k1 = k
      · subst h
        simp [mapSet, hne]
      · by_cases h2 : k1 = k2
        · subst h2
          simp [mapSet, h, ih]
        · simp [mapSet, h, h2, ih]

theorem countKey_mapSet_self {β : Type} (m : List (String × β)) (k : String) (v : β) :
    countKey (mapSet m k v) k = max 1 (countKey m k) := by
  induction m with
  | nil => simp [mapSet, countKey]
  | cons kv rest ih =>
      obtain ⟨k1, v1⟩ := kv
      unfold countKey at ih ⊢
      by_cases h : k1 = k
      · subst h
        simp [mapSet]
      · simp [mapSet, h, ih]

theorem UniqueKeys_mapSet {β : Type} (m : List (String × β)) (k : String) (v : β)
    (hm : UniqueKeys m) : UniqueKeys (mapSet m k v) := by
  intro k2
  by_cases h : k = k2
  · subst h
    rw [countKey_mapSet_self]
    have := hm k
    omega
  · rw [countKey_mapSet_ne m k k2 v h]
    exact hm k2

theorem countKey_pos_of_mapGet {β : Type} (m : List (String × β)) (k : String) (v : β)
    (h : mapGet m k = some v) : 1 ≤ countKey m k := by
  induction m with
  | nil => simp [mapGet] at h
  | cons kv rest ih =>
      obtain ⟨k1, v1⟩ := kv
      unfold countKey at ih ⊢
      by_cases h1 : k1 = k
      · simp [h1]
      · simp only [mapGet, h1, if_false] at h
        have := ih h
        simp [h1, this]

theorem mem_mapSet {β : Type} (m : List (String × β)) (k : String) (v : β) (x : String × β)
    (hx : x ∈ mapSet m k v) : x ∈ m ∨ x = (k, v) := by
  induction m with
  | nil => simpa [mapSet] using hx
  | cons kv rest ih =>
      obtain ⟨k1, v1⟩ := kv
      by_cases h : k1 = k
      · simp only [mapSet, h, if_true, List.mem_cons] at hx
        rcases hx with hx | hx
        · exact Or.inr hx
        · exact Or.inl (List.mem_cons_of_mem _ hx)
      · simp only [mapSet, h, if_false, List.mem_cons] at hx
        rcases hx with hx | hx
        · exact Or.inl (by simp [hx])
        · rcases ih hx with h1 | h1
          · exact Or.inl (List.mem_cons_of_mem _ h1)
          · exact Or.inr h1

theorem foldSet_cons {β : Type} (acc : List (String × β)) (kv : String × β)
    (l : List (String × β)) : foldSet acc (kv :: l) = foldSet (mapSet acc kv.1 kv.2) l := rfl

theorem mapGet_foldSet_not_mem {β : Type} (l : List (String × β)) (k : String) :
    ∀ acc : List (String × β), k ∉ l.map Prod.fst → mapGet (foldSet acc l) k = mapGet acc k := by
  induction l with
  | nil => intro acc _; rfl
  | cons kv rest ih =>
      intro acc hk
      simp only [List.map_cons, List.mem_cons, not_or] at hk
      rw [foldSet_cons, ih _ hk.2, mapGet_mapSet_ne _ _ _ _ (Ne.symm hk.1)]

theorem mapGet_foldSet_mem {β : Type} (l : List (String × β)) (k : String) (v : β) :
    ∀ acc : List (String × β), (l.map Prod.fst).Nodup → (k, v) ∈ l →
      mapGet (foldSet acc l) k = some v := by
  induction l with
  | nil => intro acc _ h; simp at h
  | cons kv rest ih =>
      intro acc hnd hmem
      simp only [List.map_cons, List.nodup_cons] at hnd
      rw [foldSet_cons]
      rcases List.mem_cons.mp hmem with h | h
      · subst h
        rw [mapGet_foldSet_not_mem rest _ _ hnd.1, mapGet_mapSet_self]
      · exact ih _ hnd.2 h

theorem UniqueKeys_foldSet {β : Type} (l : List (String × β)) :
    ∀ acc : List (String × β), UniqueKeys acc → UniqueKeys (foldSet acc l) := by
  induction l with
  | nil => intro acc h; exact h
  | cons kv rest ih =>
      intro acc h
      rw [foldSet_cons]
      exact ih _ (UniqueKeys_mapSet _ _ _ h)

theorem mem_foldSet {β : Type} (l : List (String × β)) (x : String × β) :
    ∀ acc : List (String × β), x ∈ foldSet acc l → x ∈ acc ∨ x ∈ l := by
  induction l with
  | nil => intro acc h; exact Or.inl h
  | cons kv rest ih =>
      intro acc h
      rw [foldSet_cons] at h
      rcases ih _ h with h1 | h1
      · rcases mem_mapSet _ _ _ _ h1 with h2 | h2
        · exact Or.inl h2
        · exact Or.inr (by simp [h2])
      · exact Or.inr (List.mem_cons_of_mem _ h1)

theorem UniqueKeys_nil {β : Type} : UniqueKeys ([] : List (String × β)) := by
  intro k
  simp [countKey]

theorem flattenHeaders_eq (h : Header) :
    flattenHeaders h = foldSet [] (h.map (fun kv => (kv.1, Join kv.2 ", "))) := by
  simp [flattenHeaders, foldSet, List.foldl_map]

/-- Every header name of a response is flattened to the join of its values,
under one key. -/
theorem flattenHeaders_spec (h : Header) (hnd : (h.map Prod.fst).Nodup) (N : String)
    (vs : List String) (hmem : (N, vs) ∈ h) :
    mapGet (flattenHeaders h) N = some (Join vs ", ") ∧ countKey (flattenHeaders h) N = 1 := by
  have hget : mapGet (flattenHeaders h) N = some (Join vs ", ") := by
    rw [flattenHeaders_eq]
    apply mapGet_foldSet_mem
    · simpa [List.map_map, Function.comp_def] using hnd
    · exact List.mem_map.mpr ⟨(N, vs), hmem, rfl⟩
  refine ⟨hget, ?_⟩
  have h1 := countKey_pos_of_mapGet _ _ _ hget
  have h2 : countKey (flattenHeaders h) N ≤ 1 := by
    rw [flattenHeaders_eq]
    exact UniqueKeys_foldSet _ _ UniqueKeys_nil N
  omega

theorem mapGet_map_value {β γ : Type} (f : β → γ) (m : List (String × β)) (k : String) :
    mapGet (m.map (fun kv => (kv.1, f kv.2))) k = (mapGet m k).map f := by
  induction m with
  | nil => rfl
  | cons kv rest ih =>
      obtain ⟨k1, v1⟩ := kv
      by_cases h : k1 = k
      · simp [mapGet, h]
      · simp [mapGet, h, ih]

theorem countKey_map_value {β γ : Type} (f : β → γ) (m : List (String × β)) (k : String) :
    countKey (m.map (fun kv => (kv.1, f kv.2))) k = countKey m k := by
  induction m with
  | nil => rfl
  | cons kv rest ih =>
      obtain ⟨k1, v1⟩ := kv
      unfold countKey at ih ⊢
      by_cases h : k1 = k
      · simp [h, ih]
      · simp [h, ih]

end Provider

/-! ## Lemmas on the runs of `Read` -/

namespace Provider

/-- Every call of `Read` is one of the runs of `ReadRun`. -/
theorem Read_run (env : Env) (req : ReadDataSourceRequest) (resp : ReadDataSourceResponse) :
    ReadRun env resp (env.ConfigGet req.Config).1 (env.ConfigGet req.Config).2
      (Read env req resp) := by
  unfold Read
  generalize env.ConfigGet req.Config = cfg
  obtain ⟨model, cfgDiags⟩ := cfg
  simp only
  split
  · rename_i herr
    exact .configError herr
  · rename_i hcfg
    simp only [Bool.not_eq_true] at hcfg
    split
    · rename_i err hreq
      exact .requestError err hcfg hreq
    · rename_i request0 hreq
      split
      · rename_i diags hloop
        exact .headerValueError request0 diags hcfg hreq hloop
      · rename_i diags request hloop
        split
        · rename_i err hdo
          exact .transportError request0 request diags err hcfg hreq hloop hdo
        · rename_i response hdo
          split
          · rename_i hstatus
            exact .statusError request0 request diags response hcfg hreq hloop hdo
              (by simpa using hstatus)
          · rename_i hstatus
            simp only [bne_iff_ne, ne_eq, Decidable.not_not] at hstatus
            split
            · rename_i bytes err hbody
              have hb : response.Body.data = bytes ∧ response.Body.err = some err := by
                simpa [ReadAll] using hbody
              have run := ReadRun.bodyReadError request0 request diags response err hcfg hreq
                hloop hdo hstatus hb.2
              cases htext : isContentTypeText env (response.Header.Get "Content-Type") <;>
                simpa [classify, htext, Diagnostics.AddWarning, contentTypeWarning] using run
            · rename_i bytes hbody
              have hb : response.Body.data = bytes ∧ response.Body.err = none := by
                simpa [ReadAll] using hbody
              obtain ⟨hdata, herr⟩ := hb
              subst hdata
              cases htext : isContentTypeText env (response.Header.Get "Content-Type")
              · simp only [htext, Bool.not_false, if_true, ValueFrom]
                split
                · rename_i hmap
                  have run := ReadRun.headerMapError request0 request diags response hcfg hreq
                    hloop hdo hstatus herr (by simpa [classify, htext, Diagnostics.AddWarning, contentTypeWarning] using hmap)
                  simpa [classify, htext, Diagnostics.AddWarning, contentTypeWarning] using run
                · rename_i hmap
                  have run := ReadRun.stateSet request0 request diags response hcfg hreq
                    hloop hdo hstatus herr (by simpa [classify, htext, Diagnostics.AddWarning, contentTypeWarning] using hmap)
                  simpa [classify, htext, recordOf, ValueFrom, Diagnostics.AddWarning, contentTypeWarning] using run
              · simp only [htext, Bool.not_true, Bool.false_eq_true, if_false, ValueFrom]
                split
                · rename_i hmap
                  have run := ReadRun.headerMapError request0 request diags response hcfg hreq
                    hloop hdo hstatus herr (by simpa [classify, htext, Diagnostics.AddWarning, contentTypeWarning] using hmap)
                  simpa [classify, htext, Diagnostics.AddWarning, contentTypeWarning] using run
                · rename_i hmap
                  have run := ReadRun.stateSet request0 request diags response hcfg hreq
                    hloop hdo hstatus herr (by simpa [classify, htext, Diagnostics.AddWarning, contentTypeWarning] using hmap)
                  simpa [classify, htext, recordOf, ValueFrom, Diagnostics.AddWarning, contentTypeWarning] using run

theorem setRequestHeaders_none (env : Env) (elems : List (String × TypesString String)) :
    ∀ (request : Request) (d0 d : Diagnostics),
      setRequestHeaders env elems request d0 = (d, none) → d.HasError = true := by
  induction elems with
  | nil => intro request d0 d h; simp [setRequestHeaders] at h
  | cons kv rest ih =>
      intro request d0 d h
      obtain ⟨name, value⟩ := kv
      simp only [setRequestHeaders, ValueAs] at h
      split at h
      · rename_i herr
        simp only [Prod.mk.injEq, and_true] at h
        rw [← h]
        exact herr
      · exact ih _ _ _ h

theorem setRequestHeaders_some (env : Env) (elems : List (String × TypesString String)) :
    ∀ (request request1 : Request) (d0 d : Diagnostics),
      setRequestHeaders env elems request d0 = (d, some request1) →
        request1.Method = request.Method ∧ request1.URL = request.URL
          ∧ request1.Header = foldSet request.Header (headerAssignments elems)
          ∧ d.HasError = d0.HasError := by
  induction elems with
  | nil =>
      intro request request1 d0 d h
      simp only [setRequestHeaders, Prod.mk.injEq, Option.some.injEq] at h
      obtain ⟨rfl, rfl⟩ := h
      exact ⟨rfl, rfl, rfl, rfl⟩
  | cons kv rest ih =>
      intro request request1 d0 d h
      obtain ⟨name, value⟩ := kv
      simp only [setRequestHeaders, ValueAs] at h
      split at h
      · simp at h
      · rename_i hok
        simp only [Bool.not_eq_true] at hok
        obtain ⟨hm, hu, hh, hd⟩ := ih _ _ _ _ h
        refine ⟨hm, hu, ?_, ?_⟩
        · rw [hh]
          rfl
        · rw [hd, hok]
          rw [HasError_Append] at hok
          cases h0 : d0.HasError
          · rfl
          · simp [h0] at hok

theorem setRequestHeaders_quiet (env : Env) (elems : List (String × TypesString String))
    (hq : ∀ kv ∈ elems, env.ValueAsDiags kv.2 = []) :
    ∀ (request : Request) (d0 : Diagnostics), d0.HasError = false →
      ∃ request1, setRequestHeaders env elems request d0 = (d0, some request1) := by
  induction elems with
  | nil => intro request d0 _; exact ⟨request, rfl⟩
  | cons kv rest ih =>
      intro request d0 h0
      obtain ⟨name, value⟩ := kv
      have hv : env.ValueAsDiags value = [] := hq (name, value) (List.mem_cons_self _ _)
      have hrest := ih (fun kv hkv => hq kv (List.mem_cons_of_mem _ hkv))
        { request with Header := request.Header.Set name value.Value } d0 h0
      simpa [setRequestHeaders, ValueAs, hv, Append_nil, h0] using hrest

theorem NewRequestWithContext_GET (env : Env) (url : String) (request : Request)
    (h : NewRequestWithContext env "GET" url = .ok request) :
    request = ⟨"GET", url, []⟩ ∧ env.urlParse url = none := by
  have hvalid : validMethod "GET" = true := by decide
  unfold NewRequestWithContext at h
  simp only [show ("GET" : String) ≠ "" by decide, if_false, hvalid, Bool.not_true,
    Bool.false_eq_true] at h
  cases hu : env.urlParse url with
  | some err => simp [hu] at h
  | none =>
      simp only [hu, Except.ok.injEq] at h
      exact ⟨h.symm, rfl⟩

theorem NewRequestWithContext_GET_ok (env : Env) (url : String)
    (h : env.urlParse url = none) :
    NewRequestWithContext env "GET" url = .ok ⟨"GET", url, []⟩ := by
  have hvalid : validMethod "GET" = true := by decide
  unfold NewRequestWithContext
  simp only [show ("GET" : String) ≠ "" by decide, if_false, hvalid, Bool.not_true,
    Bool.false_eq_true, h]

theorem HasError_classify (env : Env) (response : Response) (diags : Diagnostics) :
    (classify env response diags).HasError = diags.HasError := by
  unfold classify
  split
  · rfl
  · rw [HasError_Append]
    simp [Diagnostics.HasError, contentTypeWarning]

theorem classify_nil (env : Env) (response : Response) :
    classify env response []
      = (if isContentTypeText env (response.Header.Get "Content-Type") then []
         else [contentTypeWarning env (response.Header.Get "Content-Type")]) := by
  unfold classify
  split <;> rfl

/-- A call of `Read` whose configuration decodes, whose URL parses and whose
header values convert dispatches a request: nothing else stands in the way. -/
theorem Read_dispatches (env : Env) (req : ReadDataSourceRequest)
    (resp : ReadDataSourceResponse)
    (hcfg : (resp.Diagnostics.Append (env.ConfigGet req.Config).2).HasError = false)
    (hurl : env.urlParse (env.ConfigGet req.Config).1.URL.Value = none)
    (hval : ∀ kv ∈ (env.ConfigGet req.Config).1.RequestHeaders.Elems,
      env.ValueAsDiags kv.2 = []) :
    ∃ request, (Read env req resp).dispatched = [request] := by
  have hreq0 := NewRequestWithContext_GET_ok env _ hurl
  obtain ⟨request1, hq⟩ := setRequestHeaders_quiet env _ hval
    ⟨"GET", (env.ConfigGet req.Config).1.URL.Value, []⟩ _ hcfg
  have run := Read_run env req resp
  generalize Read env req resp = result at run
  cases run with
  | configError herr => simp [hcfg] at herr
  | requestError err _ hreq => simp [hreq0] at hreq
  | headerValueError request0 diags _ hreq hloop =>
      simp only [hreq0, Except.ok.injEq] at hreq
      subst hreq
      rw [hq] at hloop
      simp at hloop
  | transportError request0 request diags err _ hreq hloop hdo => exact ⟨request, rfl⟩
  | statusError request0 request diags response _ hreq hloop hdo hstatus => exact ⟨request, rfl⟩
  | bodyReadError request0 request diags response err _ hreq hloop hdo hstatus hbody =>
      exact ⟨request, rfl⟩
  | headerMapError request0 request diags response _ hreq hloop hdo hstatus hbody hmap =>
      exact ⟨request, rfl⟩
  | stateSet request0 request diags response _ hreq hloop hdo hstatus hbody hmap =>
      exact ⟨request, rfl⟩

/-- A call of `Read` that reports no error went through every step and ended
in `resp.State.Set`. -/
theorem Read_success (env : Env) (req : ReadDataSourceRequest) (resp : ReadDataSourceResponse)
    (hok : (Read env req resp).resp.Diagnostics.HasError = false) :
    ∃ request0 request diags response,
      NewRequestWithContext env "GET" (env.ConfigGet req.Config).1.URL.Value = .ok request0
      ∧ setRequestHeaders env (env.ConfigGet req.Config).1.RequestHeaders.Elems request0
          (resp.Diagnostics.Append (env.ConfigGet req.Config).2) = (diags, some request)
      ∧ env.Do request = .ok response
      ∧ response.StatusCode = 200
      ∧ response.Body.err = none
      ∧ Read env req resp =
          ⟨⟨(env.StateSet resp.State (recordOf env (env.ConfigGet req.Config).1 response)).1,
              ((classify env response diags).Append
                (env.ValueFromDiags (flattenHeaders response.Header))).Append
                (env.StateSet resp.State (recordOf env (env.ConfigGet req.Config).1 response)).2⟩,
            [request], .stateSet (recordOf env (env.ConfigGet req.Config).1 response)⟩ := by
  have run := Read_run env req resp
  generalize hres : Read env req resp = result at run hok
  cases run with
  | configError herr => simp [herr] at hok
  | requestError err hcfg hreq => simp [HasError_AddError] at hok
  | headerValueError request0 diags hcfg hreq hloop =>
      simp [setRequestHeaders_none _ _ _ _ _ hloop] at hok
  | transportError request0 request diags err hcfg hreq hloop hdo =>
      simp [HasError_AddError] at hok
  | statusError request0 request diags response hcfg hreq hloop hdo hstatus =>
      simp [HasError_AddError] at hok
  | bodyReadError request0 request diags response err hcfg hreq hloop hdo hstatus hbody =>
      simp [HasError_AddError] at hok
  | headerMapError request0 request diags response hcfg hreq hloop hdo hstatus hbody hmap =>
      simp [hmap] at hok
  | stateSet request0 request diags response hcfg hreq hloop hdo hstatus hbody hmap =>
      exact ⟨request0, request, diags, response, hreq, hloop, hdo, hstatus, hbody, rfl⟩

/-- A call of `Read` that dispatched `request` and got a status 200 response
with a readable body: all that is left is the conversion of the header map. -/
theorem Read_of_response (env : Env) (req : ReadDataSourceRequest)
    (resp : ReadDataSourceResponse) (request : Request) (response : Response)
    (hdisp : (Read env req resp).dispatched = [request])
    (hdo : env.Do request = .ok response)
    (hstatus : response.StatusCode = 200)
    (hbody : response.Body.err = none) :
    ∃ request0 diags,
      (resp.Diagnostics.Append (env.ConfigGet req.Config).2).HasError = false
      ∧ NewRequestWithContext env "GET" (env.ConfigGet req.Config).1.URL.Value = .ok request0
      ∧ setRequestHeaders env (env.ConfigGet req.Config).1.RequestHeaders.Elems request0
          (resp.Diagnostics.Append (env.ConfigGet req.Config).2) = (diags, some request)
      ∧ Read env req resp =
          (if ((classify env response diags).Append
                (env.ValueFromDiags (flattenHeaders response.Header))).HasError = true then
            ⟨⟨resp.State, (classify env response diags).Append
                (env.ValueFromDiags (flattenHeaders response.Header))⟩,
              [request], .headerMapError⟩
          else
            ⟨⟨(env.StateSet resp.State (recordOf env (env.ConfigGet req.Config).1 response)).1,
                ((classify env response diags).Append
                  (env.ValueFromDiags (flattenHeaders response.Header))).Append
                  (env.StateSet resp.State (recordOf env (env.ConfigGet req.Config).1 response)).2⟩,
              [request], .stateSet (recordOf env (env.ConfigGet req.Config).1 response)⟩) := by
  have run := Read_run env req resp
  generalize hres : Read env req resp = result at run hdisp
  cases run with
  | configError herr => simp at hdisp
  | requestError err hcfg hreq => simp at hdisp
  | headerValueError request0 diags hcfg hreq hloop => simp at hdisp
  | transportError request0 request1 diags err hcfg hreq hloop hdo1 =>
      simp only [List.cons.injEq, and_true] at hdisp
      subst hdisp
      simp [hdo] at hdo1
  | statusError request0 request1 diags response1 hcfg hreq hloop hdo1 hstatus1 =>
      simp only [List.cons.injEq, and_true] at hdisp
      subst hdisp
      simp only [hdo, Except.ok.injEq] at hdo1
      subst hdo1
      exact absurd hstatus hstatus1
  | bodyReadError request0 request1 diags response1 err hcfg hreq hloop hdo1 hstatus1 hbody1 =>
      simp only [List.cons.injEq, and_true] at hdisp
      subst hdisp
      simp only [hdo, Except.ok.injEq] at hdo1
      subst hdo1
      simp [hbody] at hbody1
  | headerMapError request0 request1 diags response1 hcfg hreq hloop hdo1 hstatus1 hbody1 hmap =>
      simp only [List.cons.injEq, and_true] at hdisp
      subst hdisp
      simp only [hdo, Except.ok.injEq] at hdo1
      subst hdo1
      exact ⟨request0, diags, hcfg, hreq, hloop, by rw [if_pos hmap]⟩
  | stateSet request0 request1 diags response1 hcfg hreq hloop hdo1 hstatus1 hbody1 hmap =>
      simp only [List.cons.injEq, and_true] at hdisp
      subst hdisp
      simp only [hdo, Except.ok.injEq] at hdo1
      subst hdo1
      exact ⟨request0, diags, hcfg, hreq, hloop, by rw [if_neg (by simp [hmap])]⟩

/-- Every request `Read` dispatches was created by `NewRequestWithContext` with
the method GET and went through the header loop. -/
theorem Read_dispatched (env : Env) (req : ReadDataSourceRequest)
    (resp : ReadDataSourceResponse) (request : Request)
    (hdisp : request ∈ (Read env req resp).dispatched) :
    ∃ request0 diags,
      NewRequestWithContext env "GET" (env.ConfigGet req.Config).1.URL.Value = .ok request0
      ∧ setRequestHeaders env (env.ConfigGet req.Config).1.RequestHeaders.Elems request0
          (resp.Diagnostics.Append (env.ConfigGet req.Config).2) = (diags, some request) := by
  have run := Read_run env req resp
  generalize hres : Read env req resp = result at run hdisp
  cases run with
  | configError herr => simp at hdisp
  | requestError err hcfg hreq => simp at hdisp
  | headerValueError request0 diags hcfg hreq hloop => simp at hdisp
  | transportError request0 request1 diags err hcfg hreq hloop hdo1 =>
      simp only [List.mem_singleton] at hdisp
      subst hdisp
      exact ⟨request0, diags, hreq, hloop⟩
  | statusError request0 request1 diags response1 hcfg hreq hloop hdo1 hstatus1 =>
      simp only [List.mem_singleton] at hdisp
      subst hdisp
      exact ⟨request0, diags, hreq, hloop⟩
  | bodyReadError request0 request1 diags response1 err hcfg hreq hloop hdo1 hstatus1 hbody1 =>
      simp only [List.mem_singleton] at hdisp
      subst hdisp
      exact ⟨request0, diags, hreq, hloop⟩
  | headerMapError request0 request1 diags response1 hcfg hreq hloop hdo1 hstatus1 hbody1 hmap =>
      simp only [List.mem_singleton] at hdisp
      subst hdisp
      exact ⟨request0, diags, hreq, hloop⟩
  | stateSet request0 request1 diags response1 hcfg hreq hloop hdo1 hstatus1 hbody1 hmap =>
      simp only [List.mem_singleton] at hdisp
      subst hdisp
      exact ⟨request0, diags, hreq, hloop⟩

/-- The shape of every dispatched request: method GET, the configured URL, and
the header built from the `request_headers` entries. -/
theorem Read_dispatched_shape (env : Env) (req : ReadDataSourceRequest)
    (resp : ReadDataSourceResponse) (request : Request)
    (hdisp : request ∈ (Read env req resp).dispatched) :
    request.Method = "GET" ∧ request.URL = (env.ConfigGet req.Config).1.URL.Value
      ∧ request.Header = foldSet []
          (headerAssignments (env.ConfigGet req.Config).1.RequestHeaders.Elems) := by
  obtain ⟨request0, diags, hreq, hloop⟩ := Read_dispatched env req resp request hdisp
  obtain ⟨hm, hu, hh, _⟩ := setRequestHeaders_some _ _ _ _ _ _ hloop
  obtain ⟨h0, _⟩ := NewRequestWithContext_GET _ _ _ hreq
  subst h0
  exact ⟨hm, hu, hh⟩

end Provider

/-! ## Lemmas for the claims -/

namespace Provider

theorem intercalate_go_append (sep : String) (l : List String) :
    ∀ acc w : String,
      String.intercalate.go (acc ++ w) sep l = acc ++ String.intercalate.go w sep l := by
  induction l with
  | nil => intro acc w; rfl
  | cons a rest ih =>
      intro acc w
      simp only [String.intercalate.go]
      rw [String.append_assoc, String.append_assoc, ih, String.append_assoc]

/-- The `strings.Join` of the code is the comma separated list of the
specification. -/
theorem Join_eq_commaSeparated (vs : List String) :
    Join vs ", " = Spec.commaSeparated vs := by
  unfold Join
  induction vs with
  | nil => rfl
  | cons v rest ih =>
      cases rest with
      | nil => rfl
      | cons w rest1 =>
          have hstep : String.intercalate ", " (v :: w :: rest1)
              = String.intercalate.go ((v ++ ", ") ++ w) ", " rest1 := rfl
          have hrest : String.intercalate ", " (w :: rest1)
              = String.intercalate.go w ", " rest1 := rfl
          rw [hstep, intercalate_go_append, ← hrest, ih]
          rfl

theorem mapGet_foldSet_mem_exists {β : Type} (l : List (String × β)) (k : String) :
    ∀ acc : List (String × β), k ∈ l.map Prod.fst →
      ∃ v, (k, v) ∈ l ∧ mapGet (foldSet acc l) k = some v := by
  induction l with
  | nil => intro acc h; simp at h
  | cons kv rest ih =>
      intro acc hk
      rw [foldSet_cons]
      by_cases hrest : k ∈ rest.map Prod.fst
      · obtain ⟨v, hv, hget⟩ := ih (mapSet acc kv.1 kv.2) hrest
        exact ⟨v, List.mem_cons_of_mem _ hv, hget⟩
      · have hhead : kv.1 = k := by
          simp only [List.map_cons, List.mem_cons] at hk
          rcases hk with h | h
          · exact h.symm
          · exact absurd h hrest
        refine ⟨kv.2, ?_, ?_⟩
        · rw [← hhead]
          exact List.mem_cons_self _ _
        · rw [mapGet_foldSet_not_mem rest k _ hrest, ← hhead, mapGet_mapSet_self]

theorem setRequestHeaders_some_noerr (env : Env) (elems : List (String × TypesString String)) :
    ∀ (request request1 : Request) (d0 d : Diagnostics),
      setRequestHeaders env elems request d0 = (d, some request1) →
        ∀ kv ∈ elems, Diagnostics.HasError (env.ValueAsDiags kv.2) = false := by
  induction elems with
  | nil => intro _ _ _ _ _ kv hkv; simp at hkv
  | cons e rest ih =>
      intro request request1 d0 d h kv hkv
      obtain ⟨name, value⟩ := e
      simp only [setRequestHeaders, ValueAs] at h
      split at h
      · simp at h
      · rename_i hok
        simp only [Bool.not_eq_true] at hok
        rw [HasError_Append] at hok
        rcases List.mem_cons.mp hkv with hhead | htail
        · subst hhead
          cases h1 : Diagnostics.HasError (env.ValueAsDiags value)
          · rfl
          · simp [h1] at hok
        · exact ih _ _ _ _ h kv htail

theorem mem_Append_inv (new : List Diagnostic) (x : Diagnostic) :
    ∀ diags : Diagnostics, x ∈ Diagnostics.Append diags new → x ∈ diags ∨ x ∈ new := by
  induction new with
  | nil => intro diags h; exact Or.inl h
  | cons d ds ih =>
      intro diags h
      have hstep : Diagnostics.Append diags (d :: ds)
          = Diagnostics.Append (if diags.contains d then diags else diags ++ [d]) ds := rfl
      rw [hstep] at h
      rcases ih _ h with h1 | h1
      · split at h1
        · exact Or.inl h1
        · rcases List.mem_append.mp h1 with h2 | h2
          · exact Or.inl h2
          · exact Or.inr (by simp at h2; simp [h2])
      · exact Or.inr (List.mem_cons_of_mem _ h1)

theorem setRequestHeaders_mem (env : Env) (elems : List (String × TypesString String))
    (x : Diagnostic) :
    ∀ (request : Request) (d0 d : Diagnostics) (r : Option Request),
      setRequestHeaders env elems request d0 = (d, r) → x ∈ d →
        x ∈ d0 ∨ ∃ kv ∈ elems, x ∈ env.ValueAsDiags kv.2 := by
  induction elems with
  | nil =>
      intro request d0 d r h hx
      simp only [setRequestHeaders, Prod.mk.injEq] at h
      rw [← h.1] at hx
      exact Or.inl hx
  | cons e rest ih =>
      intro request d0 d r h hx
      obtain ⟨name, value⟩ := e
      simp only [setRequestHeaders, ValueAs] at h
      have hhere : ∀ y, y ∈ Diagnostics.Append d0 (env.ValueAsDiags value) →
          y ∈ d0 ∨ ∃ kv ∈ (name, value) :: rest, y ∈ env.ValueAsDiags kv.2 := by
        intro y hy
        rcases mem_Append_inv _ _ _ hy with h1 | h1
        · exact Or.inl h1
        · exact Or.inr ⟨(name, value), List.mem_cons_self _ _, h1⟩
      split at h
      · simp only [Prod.mk.injEq] at h
        rw [← h.1] at hx
        exact hhere x hx
      · rcases ih _ _ _ _ h hx with h1 | ⟨kv, hkv, h1⟩
        · exact hhere x h1
        · exact Or.inr ⟨kv, List.mem_cons_of_mem _ hkv, h1⟩

/-- Every return of `Read` other than the last leaves an error in the
diagnostics and the state untouched. -/
theorem Read_error_exit (env : Env) (req : ReadDataSourceRequest)
    (resp : ReadDataSourceResponse)
    (hexit : ∀ record, (Read env req resp).exit ≠ .stateSet record) :
    (Read env req resp).resp.Diagnostics.HasError = true
    ∧ (Read env req resp).resp.State = resp.State := by
  have run := Read_run env req resp
  generalize hres : Read env req resp = result at run hexit
  cases run with
  | configError herr => exact ⟨herr, rfl⟩
  | requestError err hcfg hreq => exact ⟨HasError_AddError _ _ _, rfl⟩
  | headerValueError request0 diags hcfg hreq hloop =>
      exact ⟨setRequestHeaders_none _ _ _ _ _ hloop, rfl⟩
  | transportError request0 request diags err hcfg hreq hloop hdo =>
      exact ⟨HasError_AddError _ _ _, rfl⟩
  | statusError request0 request diags response hcfg hreq hloop hdo hstatus =>
      exact ⟨HasError_AddError _ _ _, rfl⟩
  | bodyReadError request0 request diags response err hcfg hreq hloop hdo hstatus hbody =>
      exact ⟨HasError_AddError _ _ _, rfl⟩
  | headerMapError request0 request diags response hcfg hreq hloop hdo hstatus hbody hmap =>
      exact ⟨hmap, rfl⟩
  | stateSet request0 request diags response hcfg hreq hloop hdo hstatus hbody hmap =>
      exact absurd rfl (hexit _)

/-- A call of `Read` that reaches `resp.State.Set` met none of the failures:
the configuration decoded, the request was constructed, every header value
converted, the transport answered with status 200, the body was read and the
header map converted. -/
theorem Read_stateSet_inv (env : Env) (req : ReadDataSourceRequest)
    (resp : ReadDataSourceResponse) (record : HTTPModel)
    (h : (Read env req resp).exit = .stateSet record) :
    (resp.Diagnostics.Append (env.ConfigGet req.Config).2).HasError = false
    ∧ (∃ request0, NewRequestWithContext env "GET" (env.ConfigGet req.Config).1.URL.Value
        = .ok request0)
    ∧ (∀ kv ∈ (env.ConfigGet req.Config).1.RequestHeaders.Elems,
        Diagnostics.HasError (env.ValueAsDiags kv.2) = false)
    ∧ ∃ response, env.Do (builtRequest (env.ConfigGet req.Config).1) = .ok response
        ∧ response.StatusCode = 200 ∧ response.Body.err = none
        ∧ Diagnostics.HasError (env.ValueFromDiags (flattenHeaders response.Header)) = false
        ∧ record = recordOf env (env.ConfigGet req.Config).1 response := by
  have run := Read_run env req resp
  generalize hres : Read env req resp = result at run h
  cases run with
  | configError herr => simp at h
  | requestError err hcfg hreq => simp at h
  | headerValueError request0 diags hcfg hreq hloop => simp at h
  | transportError request0 request diags err hcfg hreq hloop hdo => simp at h
  | statusError request0 request diags response hcfg hreq hloop hdo hstatus => simp at h
  | bodyReadError request0 request diags response err hcfg hreq hloop hdo hstatus hbody =>
      simp at h
  | headerMapError request0 request diags response hcfg hreq hloop hdo hstatus hbody hmap =>
      simp at h
  | stateSet request0 request diags response hcfg hreq hloop hdo hstatus hbody hmap =>
      simp only [Exit.stateSet.injEq] at h
      obtain ⟨hm, hu, hh, _⟩ := setRequestHeaders_some _ _ _ _ _ _ hloop
      obtain ⟨h0, _⟩ := NewRequestWithContext_GET _ _ _ hreq
      subst h0
      have hbuilt : request = builtRequest (env.ConfigGet req.Config).1 := by
        cases request
        simp only [builtRequest, Request.mk.injEq]
        exact ⟨hm, hu, hh⟩
      rw [HasError_Append, Bool.or_eq_false_iff] at hmap
      refine ⟨hcfg, ⟨_, hreq⟩, setRequestHeaders_some_noerr _ _ _ _ _ _ hloop, response,
        ?_, hstatus, hbody, hmap.2, h.symm⟩
      rw [← hbuilt]
      exact hdo

theorem mem_AddError (diags : Diagnostics) (summary detail : String) (x : Diagnostic)
    (hx : x ∈ diags.AddError summary detail) :
    x ∈ diags ∨ x = ⟨Severity.Error, summary, detail⟩ := by
  rcases mem_Append_inv _ _ _ hx with h | h
  · exact Or.inl h
  · exact Or.inr (by simpa using h)

theorem mem_classify (env : Env) (response : Response) (diags : Diagnostics) (x : Diagnostic)
    (hx : x ∈ classify env response diags) :
    x ∈ diags ∨ x = contentTypeWarning env (response.Header.Get "Content-Type") := by
  unfold classify at hx
  split at hx
  · exact Or.inl hx
  · rcases mem_Append_inv _ _ _ hx with h | h
    · exact Or.inl h
    · exact Or.inr (by simpa using h)

/-- Every diagnostic `Read` leaves behind has one of the origins of
`DiagnosticOrigin`. -/
theorem Read_diagnostics_origin (env : Env) (req : ReadDataSourceRequest)
    (resp : ReadDataSourceResponse) (x : Diagnostic)
    (hx : x ∈ (Read env req resp).resp.Diagnostics) :
    Spec.DiagnosticOrigin env req resp x := by
  have hbase : x ∈ resp.Diagnostics.Append (env.ConfigGet req.Config).2 →
      Spec.DiagnosticOrigin env req resp x := by
    intro h
    rcases mem_Append_inv _ _ _ h with h1 | h1
    · exact .initial h1
    · exact .configGet h1
  have hloopmem : ∀ (request0 : Request) (diags : Diagnostics) (r : Option Request),
      setRequestHeaders env (env.ConfigGet req.Config).1.RequestHeaders.Elems request0
        (resp.Diagnostics.Append (env.ConfigGet req.Config).2) = (diags, r) →
      x ∈ diags → Spec.DiagnosticOrigin env req resp x := by
    intro request0 diags r hloop h
    rcases setRequestHeaders_mem _ _ _ _ _ _ _ hloop h with h1 | ⟨kv, hkv, h1⟩
    · exact hbase h1
    · exact .valueAs kv hkv h1
  have hown : ∀ summary detail, summary ∈ Spec.ownErrorSummaries →
      x = ⟨Severity.Error, summary, detail⟩ → Spec.DiagnosticOrigin env req resp x := by
    intro summary detail hs hxe
    subst hxe
    exact .ownError rfl hs
  have run := Read_run env req resp
  generalize hres : Read env req resp = result at run hx
  cases run with
  | configError herr => exact hbase hx
  | requestError err hcfg hreq =>
      rcases mem_AddError _ _ _ _ hx with h | h
      · exact hbase h
      · exact hown _ _ (by simp [Spec.ownErrorSummaries]) h
  | headerValueError request0 diags hcfg hreq hloop => exact hloopmem _ _ _ hloop hx
  | transportError request0 request diags err hcfg hreq hloop hdo =>
      rcases mem_AddError _ _ _ _ hx with h | h
      · exact hloopmem _ _ _ hloop h
      · exact hown _ _ (by simp [Spec.ownErrorSummaries]) h
  | statusError request0 request diags response hcfg hreq hloop hdo hstatus =>
      rcases mem_AddError _ _ _ _ hx with h | h
      · exact hloopmem _ _ _ hloop h
      · exact hown _ _ (by simp [Spec.ownErrorSummaries]) h
  | bodyReadError request0 request diags response err hcfg hreq hloop hdo hstatus hbody =>
      rcases mem_AddError _ _ _ _ hx with h | h
      · rcases mem_classify _ _ _ _ h with h1 | h1
        · exact hloopmem _ _ _ hloop h1
        · exact .warning _ h1
      · exact hown _ _ (by simp [Spec.ownErrorSummaries]) h
  | headerMapError request0 request diags response hcfg hreq hloop hdo hstatus hbody hmap =>
      rcases mem_Append_inv _ _ _ hx with h | h
      · rcases mem_classify _ _ _ _ h with h1 | h1
        · exact hloopmem _ _ _ hloop h1
        · exact .warning _ h1
      · exact .valueFrom _ h
  | stateSet request0 request diags response hcfg hreq hloop hdo hstatus hbody hmap =>
      rcases mem_Append_inv _ _ _ hx with h | h
      · rcases mem_Append_inv _ _ _ h with h2 | h2
        · rcases mem_classify _ _ _ _ h2 with h1 | h1
          · exact hloopmem _ _ _ hloop h1
          · exact .warning _ h1
        · exact .valueFrom _ h2
      · exact .stateSet _ h

end Provider

/-! ## The claims -/

namespace Provider

/-- The examples of C1: `text/plain` with or without a UTF-8 charset is text;
a UTF-16 charset, a certificate type, an empty or a malformed header are not. -/
theorem isContentTypeText_examples :
    isContentTypeText Reference.env "text/plain" = true
    ∧ isContentTypeText Reference.env "text/plain; charset=UTF-8" = true
    ∧ isContentTypeText Reference.env "application/json; charset=UTF-16" = false
    ∧ isContentTypeText Reference.env "application/x-x509-ca-cert" = false
    ∧ isContentTypeText Reference.env "text/" = false
    ∧ isContentTypeText Reference.env "application/jsonx" = false
    ∧ isContentTypeText Reference.env "" = false := by
  decide

/-- C1, as stated, fails: a charset parameter that is present and empty is
neither absent nor `utf-8` nor `us-ascii`, and `isContentTypeText` accepts
`text/plain; charset=""`. -/
theorem C1_empty_charset_accepted :
    isContentTypeText Reference.env "text/plain; charset=\"\"" = true
    ∧ ¬ Spec.isText Reference.env "text/plain; charset=\"\"" := by
  refine ⟨by decide, ?_⟩
  rintro ⟨mediaType, params, hparse, _, hcharset⟩
  have hp : Reference.env.ParseMediaType "text/plain; charset=\"\""
      = .ok ("text/plain", [("charset", "")]) := by decide
  rw [hp] at hparse
  simp only [Except.ok.injEq, Prod.mk.injEq] at hparse
  obtain ⟨_, rfl⟩ := hparse
  have hlow : Reference.env.ToLower "" = "" := by decide
  simp only [Spec.charsetAbsentOrUtf8OrAscii, mapGet, if_true, hlow] at hcharset
  revert hcharset
  decide

/-- C1, amended: `isContentTypeText` is true exactly when the header parses as a
media type with parameters, the media type is `text/` followed by a subtype,
exactly `application/json` or starts with `application/samlmetadata+xml`, and
the charset parameter is absent or its lower-cased value is empty, `utf-8` or
`us-ascii`; it is false in every other case. -/
theorem C1_isContentTypeText_iff (env : Env) (hlower : env.ToLower "" = "")
    (contentType : String) :
    isContentTypeText env contentType = true ↔ Spec.isTextOrEmptyCharset env contentType := by
  unfold isContentTypeText Spec.isTextOrEmptyCharset
  cases hparse : env.ParseMediaType contentType with
  | error err => simp
  | ok parsed =>
      obtain ⟨mediaType, params⟩ := parsed
      simp only [matchAllowed_iff, Except.ok.injEq, Prod.mk.injEq]
      have hcs : (env.ToLower ((mapGet params "charset").getD "") = ""
            ∨ env.ToLower ((mapGet params "charset").getD "") = "utf-8"
            ∨ env.ToLower ((mapGet params "charset").getD "") = "us-ascii")
          ↔ Spec.charsetAbsentOrEmptyOrUtf8OrAscii env params := by
        unfold Spec.charsetAbsentOrEmptyOrUtf8OrAscii
        cases hget : mapGet params "charset" with
        | none => simp [hlower]
        | some v => simp
      rw [hcs]
      constructor
      · rintro ⟨h1, h2⟩
        exact ⟨mediaType, params, ⟨rfl, rfl⟩, h1, h2⟩
      · rintro ⟨m, p, ⟨rfl, rfl⟩, h1, h2⟩
        exact ⟨h1, h2⟩

/-- C1 at `text/plain; charset=UTF-8` in the reference environment. -/
theorem C1_isContentTypeText_iff_witness :
    Reference.env.ToLower "" = ""
    ∧ (isContentTypeText Reference.env "text/plain; charset=UTF-8" = true
        ↔ Spec.isTextOrEmptyCharset Reference.env "text/plain; charset=UTF-8") :=
  ⟨by decide, C1_isContentTypeText_iff Reference.env (by decide) "text/plain; charset=UTF-8"⟩

/-- The examples of C2: a single value is returned unchanged, two values are
joined with a comma and a space. -/
theorem Join_examples :
    Join ["foobar"] ", " = "foobar" ∧ Join ["1", "2"] ", " = "1, 2" := by
  decide

/-- C2: after a `Read` that reports no error, the record handed to the state
holds, for every header name `N` of the response (a Go map: distinct names) with
the values `vs`, exactly one `response_headers` entry, and its value is the
values `vs` separated by a comma and a space, in the received order. -/
theorem C2_response_headers_joined (env : Env) (req : ReadDataSourceRequest)
    (resp : ReadDataSourceResponse)
    (hok : (Read env req resp).resp.Diagnostics.HasError = false) :
    ∃ record request response,
      (Read env req resp).exit = .stateSet record
      ∧ (Read env req resp).resp.State = (env.StateSet resp.State record).1
      ∧ (Read env req resp).dispatched = [request]
      ∧ env.Do request = .ok response
      ∧ ((response.Header.map Prod.fst).Nodup → ∀ N vs, (N, vs) ∈ response.Header →
          mapGet record.ResponseHeaders.Elems N = some ⟨false, false, Spec.commaSeparated vs⟩
          ∧ countKey record.ResponseHeaders.Elems N = 1) := by
  obtain ⟨request0, request, diags, response, _, _, hdo, _, _, hres⟩ :=
    Read_success env req resp hok
  refine ⟨recordOf env (env.ConfigGet req.Config).1 response, request, response,
    by rw [hres], by rw [hres], by rw [hres], hdo, ?_⟩
  intro hnd N vs hmem
  obtain ⟨hget, hcount⟩ := flattenHeaders_spec response.Header hnd N vs hmem
  constructor
  · show mapGet ((flattenHeaders response.Header).map _) N = _
    rw [mapGet_map_value (fun v => (⟨false, false, v⟩ : TypesString String)), hget,
      Join_eq_commaSeparated]
    rfl
  · show countKey ((flattenHeaders response.Header).map _) N = 1
    rw [countKey_map_value (fun v => (⟨false, false, v⟩ : TypesString String)), hcount]

/-- C2 on the `/200` endpoint of the mock server, which sends `X-Single` once
and `X-Double` twice: the record holds `X-Single = "foobar"` and
`X-Double = "1, 2"`, each under one key. -/
theorem C2_response_headers_joined_witness :
    (Read Reference.env (Reference.config "http://127.0.0.1/200" [])
        Reference.emptyResponse).resp.Diagnostics.HasError = false
    ∧ (∃ record,
        (Read Reference.env (Reference.config "http://127.0.0.1/200" [])
          Reference.emptyResponse).exit = .stateSet record
        ∧ record.ResponseHeaders.Elems
            = [("Content-Type", ⟨false, false, "text/plain"⟩),
               ("X-Single", ⟨false, false, "foobar"⟩),
               ("X-Double", ⟨false, false, "1, 2"⟩)])
    ∧ Spec.commaSeparated ["1", "2"] = "1, 2"
    ∧ ∃ record request response,
      (Read Reference.env (Reference.config "http://127.0.0.1/200" [])
          Reference.emptyResponse).exit = .stateSet record
      ∧ (Read Reference.env (Reference.config "http://127.0.0.1/200" [])
          Reference.emptyResponse).resp.State
          = (Reference.env.StateSet Reference.emptyResponse.State record).1
      ∧ (Read Reference.env (Reference.config "http://127.0.0.1/200" [])
          Reference.emptyResponse).dispatched = [request]
      ∧ Reference.env.Do request = .ok response
      ∧ ((response.Header.map Prod.fst).Nodup → ∀ N vs, (N, vs) ∈ response.Header →
          mapGet record.ResponseHeaders.Elems N = some ⟨false, false, Spec.commaSeparated vs⟩
          ∧ countKey record.ResponseHeaders.Elems N = 1) :=
  ⟨by decide, ⟨_, rfl, by decide⟩, by decide,
    C2_response_headers_joined Reference.env
      (Reference.config "http://127.0.0.1/200" []) Reference.emptyResponse (by decide)⟩

/-- C3 fails on the code: for the status 404 of the mock server `Read` adds the
error `HTTP response code error`, writes no record and leaves the state as it
was; the model has no `status_code` field. -/
theorem C3_status_404_is_fatal :
    Read Reference.env (Reference.config "http://127.0.0.1/404" []) Reference.emptyResponse
      = ⟨⟨⟨none⟩, [⟨Severity.Error, "HTTP response code error",
            "Response code is not 200: 404"⟩]⟩,
          [⟨"GET", "http://127.0.0.1/404", []⟩], Exit.statusError⟩ := by
  decide

/-- C4 fails on the code: `Read` has no method to validate. The configuration
of `TestDataSource_UnsupportedMethod`, with `method = "HEAD"`, is refused when it
is decoded: no request is dispatched, but the error is a conversion error about
the attribute, which neither names the method `HEAD` nor lists the allowed
methods. Every diagnostic of `Read` comes from the framework, is the content
type warning or is one of its four own errors, and when the configuration
decodes, the URL parses and the header values convert, a GET request is
dispatched. -/
theorem C4_no_method_validation :
    Read Reference.env (Reference.configWithMethod "http://127.0.0.1/deleted" "HEAD")
        Reference.emptyResponse
      = ⟨⟨⟨none⟩, [⟨Severity.Error, "Value Conversion Error",
            "mismatch between struct and object: Object defines fields not found in struct: method."⟩]⟩,
          [], Exit.configError⟩
    ∧ (∀ (env : Env) (req : ReadDataSourceRequest) (resp : ReadDataSourceResponse)
        (x : Diagnostic),
        x ∈ (Read env req resp).resp.Diagnostics → Spec.DiagnosticOrigin env req resp x)
    ∧ (∀ (env : Env) (req : ReadDataSourceRequest) (resp : ReadDataSourceResponse),
        (resp.Diagnostics.Append (env.ConfigGet req.Config).2).HasError = false →
        env.urlParse (env.ConfigGet req.Config).1.URL.Value = none →
        (∀ kv ∈ (env.ConfigGet req.Config).1.RequestHeaders.Elems,
          env.ValueAsDiags kv.2 = []) →
        ∃ request, (Read env req resp).dispatched = [request] ∧ request.Method = "GET") := by
  refine ⟨by decide, Read_diagnostics_origin, ?_⟩
  intro env req resp hcfg hurl hval
  obtain ⟨request, hd⟩ := Read_dispatches env req resp hcfg hurl hval
  exact ⟨request, hd, (Read_dispatched_shape env req resp request (by simp [hd])).1⟩

/-- C5 fails on the code: every request `Read` dispatches has the method GET,
whatever the configuration; on the `/create` endpoint of
`TestDataSource_POST_201`, which answers 201 `created` to a POST only, the
record holds an empty body; and the configuration of that test, with
`method = "POST"`, is refused when it is decoded, so that nothing is sent. -/
theorem C5_method_always_GET :
    (∀ (env : Env) (req : ReadDataSourceRequest) (resp : ReadDataSourceResponse)
        (request : Request),
        request ∈ (Read env req resp).dispatched → request.Method = "GET")
    ∧ (Read Reference.env (Reference.config "http://127.0.0.1/create" [])
        Reference.emptyResponse).dispatched = [⟨"GET", "http://127.0.0.1/create", []⟩]
    ∧ (∃ record,
        (Read Reference.env (Reference.config "http://127.0.0.1/create" [])
          Reference.emptyResponse).exit = .stateSet record
        ∧ record.ResponseBody.Value = [])
    ∧ Read Reference.env (Reference.configWithMethod "http://127.0.0.1/create" "POST")
        Reference.emptyResponse
      = ⟨⟨⟨none⟩, [⟨Severity.Error, "Value Conversion Error",
            "mismatch between struct and object: Object defines fields not found in struct: method."⟩]⟩,
          [], Exit.configError⟩ := by
  refine ⟨fun env req resp request h => (Read_dispatched_shape env req resp request h).1,
    by decide, ⟨_, rfl, by decide⟩, by decide⟩

/-- C6: for a response with status 200 whose body reads as `b` and whose header
map converts, `Read` reaches `resp.State.Set` with `response_body = b` whatever
`isContentTypeText` says of the `Content-Type` header; and when the response
object is fresh and the framework conversions report nothing, the diagnostics
after `Read` are exactly the one content type warning if `isContentTypeText` is
false, and empty if it is true. -/
theorem C6_warning_only (env : Env) (req : ReadDataSourceRequest)
    (resp : ReadDataSourceResponse) (request : Request) (response : Response)
    (hdisp : (Read env req resp).dispatched = [request])
    (hdo : env.Do request = .ok response)
    (hstatus : response.StatusCode = 200)
    (hbody : response.Body.err = none)
    (hmap : Diagnostics.HasError (env.ValueFromDiags (flattenHeaders response.Header)) = false) :
    (∃ record, (Read env req resp).exit = .stateSet record
        ∧ (Read env req resp).resp.State = (env.StateSet resp.State record).1
        ∧ record.ResponseBody.Value = response.Body.data)
    ∧ (contentTypeWarning env (response.Header.Get "Content-Type")).Severity = Severity.Warning
    ∧ (resp.Diagnostics = [] → (env.ConfigGet req.Config).2 = [] →
        (∀ kv ∈ (env.ConfigGet req.Config).1.RequestHeaders.Elems, env.ValueAsDiags kv.2 = []) →
        env.ValueFromDiags (flattenHeaders response.Header) = [] →
        (∀ record, (env.StateSet resp.State record).2 = []) →
        (Read env req resp).resp.Diagnostics =
          (if isContentTypeText env (response.Header.Get "Content-Type") then []
           else [contentTypeWarning env (response.Header.Get "Content-Type")])) := by
  obtain ⟨request0, diags, hcfg, _, hloop, hres⟩ :=
    Read_of_response env req resp request response hdisp hdo hstatus hbody
  obtain ⟨_, _, _, hdiags⟩ := setRequestHeaders_some _ _ _ _ _ _ hloop
  have hnoerr : ((classify env response diags).Append
      (env.ValueFromDiags (flattenHeaders response.Header))).HasError = false := by
    rw [HasError_Append, HasError_classify, hdiags, hcfg, hmap]
    rfl
  rw [if_neg (by simp [hnoerr])] at hres
  refine ⟨⟨recordOf env (env.ConfigGet req.Config).1 response, by rw [hres], by rw [hres],
    rfl⟩, rfl, ?_⟩
  intro hfresh hquiet hval hvf hset
  have hd0 : resp.Diagnostics.Append (env.ConfigGet req.Config).2 = [] := by
    rw [hfresh, hquiet]
    rfl
  obtain ⟨request1, hq⟩ := setRequestHeaders_quiet env _ hval request0 [] rfl
  rw [hd0, hq] at hloop
  simp only [Prod.mk.injEq, Option.some.injEq] at hloop
  obtain ⟨rfl, rfl⟩ := hloop
  rw [hres]
  simp only [hset, hvf, Append_nil, classify_nil]

/-- C6 on the `/x509-ca-cert/200` endpoint of the mock server: the body `pem`
reaches the state, with one warning and no error. -/
theorem C6_warning_only_witness :
    (Read Reference.env (Reference.config "http://127.0.0.1/x509-ca-cert/200" [])
        Reference.emptyResponse).dispatched
        = [⟨"GET", "http://127.0.0.1/x509-ca-cert/200", []⟩]
    ∧ Reference.env.Do ⟨"GET", "http://127.0.0.1/x509-ca-cert/200", []⟩
        = .ok (Reference.mockResponse 200 "application/x-x509-ca-cert" "pem")
    ∧ (Read Reference.env (Reference.config "http://127.0.0.1/x509-ca-cert/200" [])
        Reference.emptyResponse).resp.Diagnostics
        = [⟨Severity.Warning,
            "Content-Type is not recognized as a text type, got \"application/x-x509-ca-cert\"",
            "If the content is binary data, Terraform may not properly handle the contents of the response."⟩]
    ∧ ∃ record,
        (Read Reference.env (Reference.config "http://127.0.0.1/x509-ca-cert/200" [])
          Reference.emptyResponse).exit = .stateSet record
        ∧ (Read Reference.env (Reference.config "http://127.0.0.1/x509-ca-cert/200" [])
          Reference.emptyResponse).resp.State
            = (Reference.env.StateSet Reference.emptyResponse.State record).1
        ∧ record.ResponseBody.Value = Reference.ascii "pem" :=
  ⟨by decide, by decide, by decide,
    (C6_warning_only Reference.env (Reference.config "http://127.0.0.1/x509-ca-cert/200" [])
      Reference.emptyResponse ⟨"GET", "http://127.0.0.1/x509-ca-cert/200", []⟩
      (Reference.mockResponse 200 "application/x-x509-ca-cert" "pem")
      (by decide) (by decide) rfl rfl rfl).1⟩

/-- C7: after a `Read` that reports no error, the deprecated `body` field and
the `response_body` field of the record are the same string, and that string is
the byte sequence the response body delivered, read without an error and left
as it is. -/
theorem C7_body_alias (env : Env) (req : ReadDataSourceRequest)
    (resp : ReadDataSourceResponse)
    (hok : (Read env req resp).resp.Diagnostics.HasError = false) :
    ∃ record request response,
      (Read env req resp).exit = .stateSet record
      ∧ (Read env req resp).resp.State = (env.StateSet resp.State record).1
      ∧ (Read env req resp).dispatched = [request]
      ∧ env.Do request = .ok response
      ∧ record.Body = record.ResponseBody
      ∧ record.ResponseBody = ⟨false, false, response.Body.data⟩
      ∧ response.Body.err = none
      ∧ ReadAll response.Body = (record.ResponseBody.Value, none) := by
  obtain ⟨request0, request, diags, response, _, _, hdo, _, hbody, hres⟩ :=
    Read_success env req resp hok
  refine ⟨recordOf env (env.ConfigGet req.Config).1 response, request, response,
    by rw [hres], by rw [hres], by rw [hres], hdo, rfl, rfl, hbody, ?_⟩
  simp [ReadAll, recordOf, hbody]

/-- C7 on the `/x509-ca-cert/200` endpoint of the mock server, whose body is
`pem`: both fields of the record hold the bytes 112, 101, 109. -/
theorem C7_body_alias_witness :
    (Read Reference.env (Reference.config "http://127.0.0.1/x509-ca-cert/200" [])
        Reference.emptyResponse).resp.Diagnostics.HasError = false
    ∧ (∃ record,
        (Read Reference.env (Reference.config "http://127.0.0.1/x509-ca-cert/200" [])
          Reference.emptyResponse).exit = .stateSet record
        ∧ record.Body = ⟨false, false, [112, 101, 109]⟩
        ∧ record.ResponseBody = ⟨false, false, [112, 101, 109]⟩)
    ∧ ∃ record request response,
      (Read Reference.env (Reference.config "http://127.0.0.1/x509-ca-cert/200" [])
          Reference.emptyResponse).exit = .stateSet record
      ∧ (Read Reference.env (Reference.config "http://127.0.0.1/x509-ca-cert/200" [])
          Reference.emptyResponse).resp.State
          = (Reference.env.StateSet Reference.emptyResponse.State record).1
      ∧ (Read Reference.env (Reference.config "http://127.0.0.1/x509-ca-cert/200" [])
          Reference.emptyResponse).dispatched = [request]
      ∧ Reference.env.Do request = .ok response
      ∧ record.Body = record.ResponseBody
      ∧ record.ResponseBody = ⟨false, false, response.Body.data⟩
      ∧ response.Body.err = none
      ∧ ReadAll response.Body = (record.ResponseBody.Value, none) :=
  ⟨by decide, ⟨_, rfl, by decide, by decide⟩,
    C7_body_alias Reference.env
      (Reference.config "http://127.0.0.1/x509-ca-cert/200" []) Reference.emptyResponse
      (by decide)⟩

/-- C8, as stated, fails: with the entries `x-a = 1` and `X-A = 2` the request
carries the single header `X-A: 2`; the name `x-a` and the value `1` are gone. -/
theorem C8_header_case_not_preserved :
    (Read Reference.env (Reference.config "http://127.0.0.1/200" [("x-a", "1"), ("X-A", "2")])
        Reference.emptyResponse).dispatched
      = [⟨"GET", "http://127.0.0.1/200", [("X-A", ["2"])]⟩]
    ∧ ¬ Spec.headersAsSupplied
        (Reference.config "http://127.0.0.1/200"
          [("x-a", "1"), ("X-A", "2")]).Config.request_headers.Elems
        ⟨"GET", "http://127.0.0.1/200", [("X-A", ["2"])]⟩ := by
  refine ⟨by decide, ?_⟩
  rintro ⟨h, _⟩
  have := h ("x-a", ⟨false, false, "1"⟩) (by decide)
  revert this
  decide

/-- C8, amended: every request `Read` dispatches carries, for every
`request_headers` entry, a header whose name is the canonical form of the
supplied name (`CanonicalMIMEHeaderKey`) and whose value is that of an entry
with this canonical name: exactly the supplied value when no entry with the same
canonical name has another value. Every header of the request comes from an
entry, and no name occurs twice. -/
theorem C8_headers_canonical (env : Env) (req : ReadDataSourceRequest)
    (resp : ReadDataSourceResponse) (request : Request)
    (hdisp : request ∈ (Read env req resp).dispatched) :
    (∀ kv ∈ (env.ConfigGet req.Config).1.RequestHeaders.Elems,
        ∃ kv1 ∈ (env.ConfigGet req.Config).1.RequestHeaders.Elems,
          CanonicalMIMEHeaderKey kv1.1 = CanonicalMIMEHeaderKey kv.1
          ∧ mapGet request.Header (CanonicalMIMEHeaderKey kv.1) = some [kv1.2.Value])
    ∧ (∀ kv ∈ (env.ConfigGet req.Config).1.RequestHeaders.Elems,
        (∀ kv1 ∈ (env.ConfigGet req.Config).1.RequestHeaders.Elems,
          CanonicalMIMEHeaderKey kv1.1 = CanonicalMIMEHeaderKey kv.1 →
            kv1.2.Value = kv.2.Value) →
        mapGet request.Header (CanonicalMIMEHeaderKey kv.1) = some [kv.2.Value])
    ∧ (∀ h ∈ request.Header, ∃ kv ∈ (env.ConfigGet req.Config).1.RequestHeaders.Elems,
        h = (CanonicalMIMEHeaderKey kv.1, [kv.2.Value]))
    ∧ UniqueKeys request.Header := by
  obtain ⟨_, _, hh⟩ := Read_dispatched_shape env req resp request hdisp
  rw [hh]
  have hfirst : ∀ kv ∈ (env.ConfigGet req.Config).1.RequestHeaders.Elems,
      ∃ kv1 ∈ (env.ConfigGet req.Config).1.RequestHeaders.Elems,
        CanonicalMIMEHeaderKey kv1.1 = CanonicalMIMEHeaderKey kv.1
        ∧ mapGet (foldSet [] (headerAssignments
            (env.ConfigGet req.Config).1.RequestHeaders.Elems))
            (CanonicalMIMEHeaderKey kv.1) = some [kv1.2.Value] := by
    intro kv hkv
    have hkey : CanonicalMIMEHeaderKey kv.1 ∈
        (headerAssignments (env.ConfigGet req.Config).1.RequestHeaders.Elems).map Prod.fst := by
      simp only [headerAssignments, List.map_map, List.mem_map, Function.comp]
      exact ⟨kv, hkv, rfl⟩
    obtain ⟨v, hv, hget⟩ := mapGet_foldSet_mem_exists _ _ [] hkey
    obtain ⟨kv1, hkv1, heq⟩ := List.mem_map.mp hv
    simp only [Prod.mk.injEq] at heq
    exact ⟨kv1, hkv1, heq.1, by rw [hget, ← heq.2]⟩
  refine ⟨hfirst, ?_, ?_, UniqueKeys_foldSet _ _ UniqueKeys_nil⟩
  · intro kv hkv hsame
    obtain ⟨kv1, hkv1, hcanon, hget⟩ := hfirst kv hkv
    rw [hget, hsame kv1 hkv1 hcanon]
  · intro h hmem
    rcases mem_foldSet _ _ _ hmem with h1 | h1
    · simp at h1
    · obtain ⟨kv, hkv, rfl⟩ := List.mem_map.mp h1
      exact ⟨kv, hkv, rfl⟩

/-- C8 on the entries `x-a = 1` and `X-A = 2`: the request carries the one
header `X-A`, with the value of one of the two entries. -/
theorem C8_headers_canonical_witness :
    (⟨"GET", "http://127.0.0.1/200", [("X-A", ["2"])]⟩ : Request) ∈
      (Read Reference.env
        (Reference.config "http://127.0.0.1/200" [("x-a", "1"), ("X-A", "2")])
        Reference.emptyResponse).dispatched
    ∧ (∀ kv ∈ (Reference.env.ConfigGet (Reference.config "http://127.0.0.1/200"
          [("x-a", "1"), ("X-A", "2")]).Config).1.RequestHeaders.Elems,
        ∃ kv1 ∈ (Reference.env.ConfigGet (Reference.config "http://127.0.0.1/200"
          [("x-a", "1"), ("X-A", "2")]).Config).1.RequestHeaders.Elems,
          CanonicalMIMEHeaderKey kv1.1 = CanonicalMIMEHeaderKey kv.1
          ∧ mapGet (⟨"GET", "http://127.0.0.1/200", [("X-A", ["2"])]⟩ : Request).Header
              (CanonicalMIMEHeaderKey kv.1) = some [kv1.2.Value])
    ∧ (∀ kv ∈ (Reference.env.ConfigGet (Reference.config "http://127.0.0.1/200"
          [("x-a", "1"), ("X-A", "2")]).Config).1.RequestHeaders.Elems,
        (∀ kv1 ∈ (Reference.env.ConfigGet (Reference.config "http://127.0.0.1/200"
          [("x-a", "1"), ("X-A", "2")]).Config).1.RequestHeaders.Elems,
          CanonicalMIMEHeaderKey kv1.1 = CanonicalMIMEHeaderKey kv.1 →
            kv1.2.Value = kv.2.Value) →
        mapGet (⟨"GET", "http://127.0.0.1/200", [("X-A", ["2"])]⟩ : Request).Header
          (CanonicalMIMEHeaderKey kv.1) = some [kv.2.Value])
    ∧ (∀ h ∈ (⟨"GET", "http://127.0.0.1/200", [("X-A", ["2"])]⟩ : Request).Header,
        ∃ kv ∈ (Reference.env.ConfigGet (Reference.config "http://127.0.0.1/200"
          [("x-a", "1"), ("X-A", "2")]).Config).1.RequestHeaders.Elems,
        h = (CanonicalMIMEHeaderKey kv.1, [kv.2.Value]))
    ∧ UniqueKeys (⟨"GET", "http://127.0.0.1/200", [("X-A", ["2"])]⟩ : Request).Header :=
  ⟨by decide,
    C8_headers_canonical Reference.env
      (Reference.config "http://127.0.0.1/200" [("x-a", "1"), ("X-A", "2")])
      Reference.emptyResponse
      ⟨"GET", "http://127.0.0.1/200", [("X-A", ["2"])]⟩ (by decide)⟩

/-- C9: whenever `Read` meets a fatal error of the specification (the
configuration does not decode, the request cannot be constructed, a header
value does not convert, the transport fails, the body cannot be read, the
header map does not convert), the diagnostics after the call carry an error and
the state after the call is the state before it: no record is written. -/
theorem C9_error_leaves_state (env : Env) (req : ReadDataSourceRequest)
    (resp : ReadDataSourceResponse) (hfatal : Spec.FatalError env req) :
    (Read env req resp).resp.Diagnostics.HasError = true
    ∧ (Read env req resp).resp.State = resp.State := by
  apply Read_error_exit
  intro record hexit
  obtain ⟨hcfg, ⟨request0, hreq⟩, hval, response, hdo, _, hbody, hmap, _⟩ :=
    Read_stateSet_inv env req resp record hexit
  cases hfatal with
  | configDecoding h =>
      rw [HasError_Append, h] at hcfg
      simp at hcfg
  | requestConstruction err h => simp [hreq] at h
  | headerValueConversion kv hkv h => simp [hval kv hkv] at h
  | transport err h => simp [hdo] at h
  | bodyRead response1 err hdo1 h =>
      simp only [hdo, Except.ok.injEq] at hdo1
      subst hdo1
      simp [hbody] at h
  | headerMapConversion response1 hdo1 h =>
      simp only [hdo, Except.ok.injEq] at hdo1
      subst hdo1
      simp [hmap] at h

/-- C9 on a transport failure: no server listens at the URL. -/
theorem C9_error_leaves_state_witness :
    Spec.FatalError Reference.env (Reference.config "http://192.0.2.1/" [])
    ∧ (Read Reference.env (Reference.config "http://192.0.2.1/" [])
        Reference.emptyResponse).resp.Diagnostics.HasError = true
    ∧ (Read Reference.env (Reference.config "http://192.0.2.1/" [])
        Reference.emptyResponse).resp.State = Reference.emptyResponse.State :=
  ⟨Spec.FatalError.transport "dial tcp: connection refused" (by decide),
    C9_error_leaves_state Reference.env (Reference.config "http://192.0.2.1/" [])
      Reference.emptyResponse
      (Spec.FatalError.transport "dial tcp: connection refused" (by decide))⟩

/-- A header map conversion failure on the `/200` endpoint of the mock server is
one of the fatal errors: `Read` returns at line 185, reports the error and
leaves the state empty. -/
theorem headerMap_failure_keeps_state :
    Spec.FatalError Reference.envMapFails (Reference.config "http://127.0.0.1/200" [])
    ∧ Read Reference.envMapFails (Reference.config "http://127.0.0.1/200" [])
        Reference.emptyResponse
      = ⟨⟨⟨none⟩, [⟨Severity.Error, "Value Conversion Error",
            "cannot convert the header map"⟩]⟩,
          [⟨"GET", "http://127.0.0.1/200", []⟩], Exit.headerMapError⟩ :=
  ⟨Spec.FatalError.headerMapConversion (Reference.mockResponse 200 "text/plain" "1.0.0")
    (by decide) (by decide), by decide⟩

/-- C10: when `mime.ParseMediaType` rejects the empty string,
`isContentTypeText ""` is false, and for a status 200 response without a
`Content-Type` header whose body can be read, `Read` reports the warning built
from the empty string and, unless the header map conversion fails, reaches
`resp.State.Set` with the body. -/
theorem C10_missing_content_type (env : Env) (req : ReadDataSourceRequest)
    (resp : ReadDataSourceResponse) (request : Request) (response : Response)
    (hparse : ∃ err, env.ParseMediaType "" = .error err)
    (hdisp : (Read env req resp).dispatched = [request])
    (hdo : env.Do request = .ok response)
    (hstatus : response.StatusCode = 200)
    (hct : mapGet response.Header "Content-Type" = none)
    (hbody : response.Body.err = none)
    (hmap : Diagnostics.HasError (env.ValueFromDiags (flattenHeaders response.Header)) = false) :
    isContentTypeText env "" = false
    ∧ contentTypeWarning env "" ∈ (Read env req resp).resp.Diagnostics
    ∧ (contentTypeWarning env "").Summary
        = env.Sprintf "Content-Type is not recognized as a text type, got %q" [.str ""]
    ∧ ∃ record, (Read env req resp).exit = .stateSet record
        ∧ (Read env req resp).resp.State = (env.StateSet resp.State record).1
        ∧ record.ResponseBody.Value = response.Body.data := by
  obtain ⟨err, hperr⟩ := hparse
  have htext : isContentTypeText env "" = false := by
    simp [isContentTypeText, hperr]
  have hcanon : CanonicalMIMEHeaderKey "Content-Type" = "Content-Type" := by decide
  have hget : response.Header.Get "Content-Type" = "" := by
    simp [Header.Get, hcanon, hct]
  obtain ⟨request0, diags, hcfg, _, hloop, hres⟩ :=
    Read_of_response env req resp request response hdisp hdo hstatus hbody
  obtain ⟨_, _, _, hdiags⟩ := setRequestHeaders_some _ _ _ _ _ _ hloop
  have hclass : classify env response diags = diags.Append [contentTypeWarning env ""] := by
    simp [classify, hget, htext]
  have hnoerr : ((classify env response diags).Append
      (env.ValueFromDiags (flattenHeaders response.Header))).HasError = false := by
    rw [HasError_Append, hclass, HasError_Append, hdiags, hcfg, hmap]
    simp [Diagnostics.HasError, contentTypeWarning]
  rw [if_neg (by simp [hnoerr])] at hres
  refine ⟨htext, ?_, rfl, recordOf env (env.ConfigGet req.Config).1 response, by rw [hres],
    by rw [hres], rfl⟩
  rw [hres]
  apply mem_Append_of_mem
  apply mem_Append_of_mem
  rw [hclass]
  exact mem_Append_self _ _

/-- C10 on a server that sends no header at all: the warning quotes the empty
string. -/
theorem C10_missing_content_type_witness :
    (∃ err, (Reference.envWith Reference.bareServer).ParseMediaType "" = .error err)
    ∧ (Read (Reference.envWith Reference.bareServer) (Reference.config "http://127.0.0.1/" [])
        Reference.emptyResponse).dispatched = [⟨"GET", "http://127.0.0.1/", []⟩]
    ∧ (Reference.envWith Reference.bareServer).Sprintf
        "Content-Type is not recognized as a text type, got %q" [.str ""]
        = "Content-Type is not recognized as a text type, got \"\""
    ∧ isContentTypeText (Reference.envWith Reference.bareServer) "" = false
    ∧ contentTypeWarning (Reference.envWith Reference.bareServer) "" ∈
        (Read (Reference.envWith Reference.bareServer) (Reference.config "http://127.0.0.1/" [])
          Reference.emptyResponse).resp.Diagnostics
    ∧ (contentTypeWarning (Reference.envWith Reference.bareServer) "").Summary
        = (Reference.envWith Reference.bareServer).Sprintf
            "Content-Type is not recognized as a text type, got %q" [.str ""]
    ∧ ∃ record,
        (Read (Reference.envWith Reference.bareServer) (Reference.config "http://127.0.0.1/" [])
          Reference.emptyResponse).exit = .stateSet record
        ∧ (Read (Reference.envWith Reference.bareServer)
            (Reference.config "http://127.0.0.1/" []) Reference.emptyResponse).resp.State
            = ((Reference.envWith Reference.bareServer).StateSet
                Reference.emptyResponse.State record).1
        ∧ record.ResponseBody.Value
            = (⟨200, [], ⟨Reference.ascii "ok", none⟩⟩ : Response).Body.data :=
  ⟨⟨"mime: no media type", by decide⟩, by decide, by decide,
    C10_missing_content_type (Reference.envWith Reference.bareServer)
      (Reference.config "http://127.0.0.1/" []) Reference.emptyResponse
      ⟨"GET", "http://127.0.0.1/", []⟩ ⟨200, [], ⟨Reference.ascii "ok", none⟩⟩
      ⟨"mime: no media type", by decide⟩ (by decide) (by decide) rfl rfl rfl rfl⟩

end Provider
